import Mathlib

/-!
# Consensus Context of opentxs: a shallow embedding

The definitions below follow `src/src/consensus/Context.cpp`.

* `std::set<uint64_t>` is a strictly ascending `List Nat`; `begin()` is the head,
  iteration runs from the head, and `insert`/`erase`/`count` act by key.
* 64-bit counters are `Nat`, reduced modulo `2 ^ 64` where the code can overflow.
* Every public operation runs under `lock_`; the embedding is sequential and the
  internal helpers are modelled at calls where `verify_write_lock` holds.
* `OT_FAIL` and the dereference of a null `nym_` end the run: `none`.
* Code that lives outside `Context.cpp` (identifier encoding, the wallet, the
  digest, the `Signable` base class, `Nym::SignProto`/`VerifyProto`) is a field of
  `Collaborators`.
-/

namespace opentxs

/-- The cap of the acknowledged window: `#define OT_MAX_ACK_NUMS 100`. -/
def OT_MAX_ACK_NUMS : Nat := 100

/-- Number of values of a 64-bit unsigned integer. -/
def UINT64_RANGE : Nat := 2 ^ 64

abbrev RequestNumber := Nat

abbrev TransactionNumber := Nat

/-- The bytes held by an `Identifier`; the default-constructed one is empty. -/
abbrev Identifier := List Nat

/-! ## `std::set` over an ascending list -/

/-- Key insertion of `std::set::insert`: the new content and the `second` flag
(whether the key was new). -/
def set_insert (x : Nat) : List Nat → List Nat × Bool
  | [] => ([x], true)
  | y :: ys =>
    if x < y then (x :: y :: ys, true)
    else if x = y then (y :: ys, false)
    else (y :: (set_insert x ys).1, (set_insert x ys).2)

/-- Key removal of `std::set::erase(key)`: the new content and the number of
removed elements. -/
def set_erase (x : Nat) : List Nat → List Nat × Nat
  | [] => ([], 0)
  | y :: ys =>
    if x = y then (ys, 1)
    else (y :: (set_erase x ys).1, (set_erase x ys).2)

/-- Lookup of `std::set::count`. -/
def set_count (x : Nat) (s : List Nat) : Nat :=
  if x ∈ s then 1 else 0

/-- Removal of the first element, `erase(begin())`. -/
def set_erase_begin : List Nat → List Nat
  | [] => []
  | _ :: ys => ys

/-- A list is the content of a `std::set` when it is strictly ascending. -/
def IsStdSet (s : List Nat) : Prop := s.Sorted (fun a b => a < b)

instance (s : List Nat) : Decidable (IsStdSet s) :=
  inferInstanceAs (Decidable (List.Pairwise (fun a b => a < b) s))

/-! ## Protobuf messages -/

/-- The enumerators of `proto::ConsensusType` that `Context.cpp` names, and every
other tag. -/
inductive ConsensusType where
  | CONSENSUSTYPE_SERVER
  | CONSENSUSTYPE_CLIENT
  | unlisted (tag : Nat)
deriving DecidableEq, Repr

/-- The enumerator of `proto::SignatureRole` that `Context.cpp` names, and every
other tag. -/
inductive SignatureRole where
  | SIGROLE_CONTEXT
  | unlisted (tag : Nat)
deriving DecidableEq, Repr

namespace proto

/-- Modelled from the spec: the embedded signature block (algorithm tag, role tag,
signer identity, raw signature bytes) of the wire form, with the version that
`update_signature` sets. The message type is declared outside `src/`. -/
structure Signature where
  version : Nat
  role : SignatureRole
  hashtype : Nat
  credentialid : String
  signature : List Nat
deriving DecidableEq, Repr

/-- A default-constructed `proto::Signature`. -/
def Signature.empty : Signature :=
  { version := 0, role := SignatureRole.unlisted 0, hashtype := 0,
    credentialid := "", signature := [] }

/-- The message `proto::Context`, with the fields that `Context.cpp` reads and
writes. An unset `signature` is `none`. -/
structure Context where
  version : Nat
  type : ConsensusType
  localnym : String
  remotenym : String
  localnymboxhash : String
  remotenymboxhash : String
  requestnumber : Nat
  acknowledgedrequestnumber : List Nat
  availabletransactionnumber : List Nat
  issuedtransactionnumber : List Nat
  signature : Option Signature
deriving DecidableEq, Repr

/-- A default-constructed `proto::Context`. -/
def Context.empty : Context :=
  { version := 0, type := ConsensusType.unlisted 0, localnym := "", remotenym := "",
    localnymboxhash := "", remotenymboxhash := "", requestnumber := 0,
    acknowledgedrequestnumber := [], availabletransactionnumber := [],
    issuedtransactionnumber := [], signature := none }

/-- The accessor `signature()`: the default instance when the field is unset. -/
def Context.get_signature (p : Context) : Signature :=
  p.signature.getD Signature.empty

end proto

/-! ## The Context object -/

/-- An identity handle; `Context.cpp` only reads its `ID()`. -/
structure Nym where
  ID : Identifier
deriving DecidableEq, Repr

/-- The members of `Context` and of its `Signable` base that `Context.cpp` uses.
`consensus_type` is the value of the virtual `Type()`. -/
structure Context where
  version_ : Nat
  consensus_type : ConsensusType
  nym_ : Option Nym
  remote_nym_ : Option Nym
  id_ : Identifier
  signatures_ : List proto.Signature
  local_nymbox_hash_ : Identifier
  remote_nymbox_hash_ : Identifier
  request_number_ : Nat
  acknowledged_request_numbers_ : List RequestNumber
  available_transaction_numbers_ : List TransactionNumber
  issued_transaction_numbers_ : List TransactionNumber
deriving DecidableEq, Repr

/-- The code this file calls but does not define. -/
structure Collaborators where
  /-- Conversion `String(const Identifier&).Get()`. -/
  idToString : Identifier → String
  /-- Conversion `Identifier(const std::string&)`. -/
  stringToId : String → Identifier
  /-- Lookup `Wallet::Nym`; a null pointer is `none`. -/
  walletNym : Identifier → Option Nym
  /-- Digest `Identifier::CalculateDigest(proto::ProtoAsData(contract))`. -/
  CalculateDigest : proto.Context → Identifier
  /-- Base step `Signable::update_signature`. -/
  super_update_signature : Context → Bool
  /-- Base check `Signable::verify_signature`. -/
  super_verify_signature : Context → proto.Signature → Bool
  /-- Signing `Nym::SignProto(serialized, signature)`: success and the signature
  as the call leaves it. -/
  SignProto : Nym → proto.Context → proto.Signature → Bool × proto.Signature
  /-- Verification `Nym::VerifyProto(serialized, signature)`. -/
  VerifyProto : Nym → proto.Context → proto.Signature → Bool

/-- The test `String::Exists()`: the string holds at least one character. -/
def String_Exists (s : String) : Bool := decide (0 < s.length)

/-- The virtual `Type()`. -/
def Context.Type_ (c : Context) : ConsensusType := c.consensus_type

/-- `Context::Context(const Identifier& local, const Identifier& remote, Wallet&)`. -/
def Context.create (E : Collaborators) (type : ConsensusType)
    (localId remoteId : Identifier) : Context :=
  { version_ := 1
    consensus_type := type
    nym_ := E.walletNym localId
    remote_nym_ := E.walletNym remoteId
    id_ := []
    signatures_ := []
    local_nymbox_hash_ := []
    remote_nymbox_hash_ := []
    request_number_ := 0
    acknowledged_request_numbers_ := []
    available_transaction_numbers_ := []
    issued_transaction_numbers_ := [] }

/-- The loops of the deserialising constructor: every entry is inserted. -/
def insert_all (entries : List Nat) : List Nat :=
  entries.foldl (fun s it => (set_insert it s).1) []

/-- `Context::Context(const proto::Context& serialized, Wallet&)`. -/
def Context.load (E : Collaborators) (type : ConsensusType)
    (serialized : proto.Context) : Context :=
  { version_ := serialized.version
    consensus_type := type
    nym_ := E.walletNym (E.stringToId serialized.localnym)
    remote_nym_ := E.walletNym (E.stringToId serialized.remotenym)
    id_ := []
    signatures_ := [serialized.get_signature]
    local_nymbox_hash_ := E.stringToId serialized.localnymboxhash
    remote_nymbox_hash_ := E.stringToId serialized.remotenymboxhash
    request_number_ := serialized.requestnumber
    acknowledged_request_numbers_ := insert_all serialized.acknowledgedrequestnumber
    available_transaction_numbers_ := insert_all serialized.availabletransactionnumber
    issued_transaction_numbers_ := insert_all serialized.issuedtransactionnumber }

/-- `Context::AcknowledgedNumbers`. -/
def AcknowledgedNumbers (c : Context) : List RequestNumber :=
  c.acknowledged_request_numbers_

/-- The loop `while (OT_MAX_ACK_NUMS < size()) erase(begin())` of
`AddAcknowledgedNumber`: each round drops the head, so the recursion is on the
list itself. -/
def evict_loop : List Nat → List Nat
  | [] => []
  | x :: xs =>
    if OT_MAX_ACK_NUMS < (x :: xs).length then evict_loop (set_erase_begin (x :: xs))
    else x :: xs

/-- `Context::AddAcknowledgedNumber`: the returned `output.second` and the new
state. -/
def AddAcknowledgedNumber (req : RequestNumber) (c : Context) : Bool × Context :=
  let output := set_insert req c.acknowledged_request_numbers_
  (output.2, { c with acknowledged_request_numbers_ := evict_loop output.1 })

/-- The first loop of `finish_acknowledgements`: the stored numbers that `req`
does not hold. -/
def finish_toErase (req : List RequestNumber) (acks : List RequestNumber) : List Nat :=
  acks.foldl (fun toErase number =>
    if 0 = set_count number req then (set_insert number toErase).1 else toErase) []

/-- `Context::finish_acknowledgements`. -/
def finish_acknowledgements (req : List RequestNumber) (c : Context) : Context :=
  let toErase := finish_toErase req c.acknowledged_request_numbers_
  { c with acknowledged_request_numbers_ :=
      toErase.foldl (fun s it => (set_erase it s).1) c.acknowledged_request_numbers_ }

/-- `Context::HaveLocalNymboxHash`. -/
def HaveLocalNymboxHash (E : Collaborators) (c : Context) : Bool :=
  String_Exists (E.idToString c.local_nymbox_hash_)

/-- `Context::HaveRemoteNymboxHash`. -/
def HaveRemoteNymboxHash (E : Collaborators) (c : Context) : Bool :=
  String_Exists (E.idToString c.remote_nymbox_hash_)

/-- `Context::IDVersion`; `OT_FAIL` is `none`. -/
def IDVersion (E : Collaborators) (c : Context) : Option proto.Context :=
  let output := { proto.Context.empty with version := c.version_ }
  let switched : Option proto.Context :=
    match c.Type_ with
    | ConsensusType.CONSENSUSTYPE_SERVER =>
      let o1 := match c.nym_ with
        | some n => { output with localnym := E.idToString n.ID }
        | none => output
      let o2 := match c.remote_nym_ with
        | some n => { o1 with remotenym := E.idToString n.ID }
        | none => o1
      some { o2 with
        localnymboxhash := E.idToString c.local_nymbox_hash_
        remotenymboxhash := E.idToString c.remote_nymbox_hash_ }
    | ConsensusType.CONSENSUSTYPE_CLIENT =>
      let o1 := match c.nym_ with
        | some n => { output with remotenym := E.idToString n.ID }
        | none => output
      let o2 := match c.remote_nym_ with
        | some n => { o1 with localnym := E.idToString n.ID }
        | none => o1
      some { o2 with
        remotenymboxhash := E.idToString c.local_nymbox_hash_
        localnymboxhash := E.idToString c.remote_nymbox_hash_ }
    | ConsensusType.unlisted _ => none
  switched.map fun o =>
    { o with
      requestnumber := c.request_number_
      availabletransactionnumber := c.available_transaction_numbers_
      issuedtransactionnumber := c.issued_transaction_numbers_ }

/-- `Context::GetID`. -/
def GetID (E : Collaborators) (c : Context) : Option Identifier :=
  (IDVersion E c).map E.CalculateDigest

/-- Modelled from the spec: `Signable::CalculateID`, which is not in `src/`; the
setters "unconditionally recompute the composite identifier", the stored `id_`
becoming `GetID` of the state. -/
def CalculateID (E : Collaborators) (c : Context) : Option Context :=
  (GetID E c).map fun i => { c with id_ := i }

/-- `Context::IncrementRequest`: the pre-increment of the 64-bit atomic counter;
the returned value and the new state. -/
def IncrementRequest (c : Context) : RequestNumber × Context :=
  let next := (c.request_number_ + 1) % UINT64_RANGE
  (next, { c with request_number_ := next })

/-- `Context::LocalNymboxHash`. -/
def LocalNymboxHash (c : Context) : Identifier := c.local_nymbox_hash_

/-- `Context::NymboxHashMatch`. -/
def NymboxHashMatch (E : Collaborators) (c : Context) : Bool :=
  if !HaveLocalNymboxHash E c then false
  else if !HaveRemoteNymboxHash E c then false
  else decide (c.local_nymbox_hash_ = c.remote_nymbox_hash_)

/-- `Context::RemoteNymboxHash`. -/
def RemoteNymboxHash (c : Context) : Identifier := c.remote_nymbox_hash_

/-- `Context::RemoveAcknowledgedNumber`: the returned `0 < removed` and the new
state. -/
def RemoveAcknowledgedNumber (req : List RequestNumber) (c : Context) : Bool × Context :=
  let out := req.foldl (fun (acc : Nat × List Nat) number =>
    (acc.1 + (set_erase number acc.2).2, (set_erase number acc.2).1))
    (0, c.acknowledged_request_numbers_)
  (decide (0 < out.1), { c with acknowledged_request_numbers_ := out.2 })

/-- `Context::Request`. -/
def Request (c : Context) : RequestNumber := c.request_number_

/-- `Context::serialize(lock, type)`. -/
def serialize (E : Collaborators) (c : Context) (type : ConsensusType) : proto.Context :=
  let output := { proto.Context.empty with version := c.version_, type := type }
  let o1 := match c.nym_ with
    | some n => { output with localnym := E.idToString n.ID }
    | none => output
  let o2 := match c.remote_nym_ with
    | some n => { o1 with remotenym := E.idToString n.ID }
    | none => o1
  { o2 with
    localnymboxhash := E.idToString c.local_nymbox_hash_
    remotenymboxhash := E.idToString c.remote_nymbox_hash_
    requestnumber := c.request_number_
    acknowledgedrequestnumber := c.acknowledged_request_numbers_
    availabletransactionnumber := c.available_transaction_numbers_
    issuedtransactionnumber := c.issued_transaction_numbers_ }

/-- `Context::SetLocalNymboxHash`. -/
def SetLocalNymboxHash (E : Collaborators) (hash : Identifier) (c : Context) :
    Option Context :=
  CalculateID E { c with local_nymbox_hash_ := hash }

/-- `Context::SetRemoteNymboxHash`. -/
def SetRemoteNymboxHash (E : Collaborators) (hash : Identifier) (c : Context) :
    Option Context :=
  CalculateID E { c with remote_nymbox_hash_ := hash }

/-- `Context::SetRequest`. -/
def SetRequest (req : RequestNumber) (c : Context) : Context :=
  { c with request_number_ := req }

/-- `Context::SigVersion`. -/
def SigVersion (E : Collaborators) (c : Context) : proto.Context :=
  let output := serialize E c c.Type_
  { output with signature := none }

/-- The message handed to `SignProto` by `update_signature`: `SigVersion` with a
signature field of version 2 and role `SIGROLE_CONTEXT`. -/
def signing_input (E : Collaborators) (c : Context) : proto.Context × proto.Signature :=
  let serialized := SigVersion E c
  let signature :=
    { serialized.get_signature with version := 2, role := SignatureRole.SIGROLE_CONTEXT }
  ({ serialized with signature := some signature }, signature)

/-- `Context::update_signature`: the returned flag and the new state; `none` when
the null `nym_` is dereferenced. -/
def update_signature (E : Collaborators) (c : Context) : Option (Bool × Context) :=
  if !E.super_update_signature c then some (false, c)
  else
    let c1 := { c with signatures_ := [] }
    let input := signing_input E c1
    match c1.nym_ with
    | none => none
    | some nym =>
      let signed := E.SignProto nym input.1 input.2
      if signed.1 then some (true, { c1 with signatures_ := signed.2 :: c1.signatures_ })
      else some (false, c1)

/-- `Context::verify_signature`; `none` when the null `nym_` is dereferenced. -/
def verify_signature (E : Collaborators) (c : Context) (signature : proto.Signature) :
    Option Bool :=
  if !E.super_verify_signature c signature then some false
  else
    let serialized := { SigVersion E c with signature := some signature }
    match c.nym_ with
    | none => none
    | some nym => some (E.VerifyProto nym serialized signature)

/-- `Context::validate`. -/
def validate (E : Collaborators) (c : Context) : Option Bool :=
  if 1 ≠ c.signatures_.length then some false
  else
    match c.signatures_ with
    | [] => some false
    | front :: _ => verify_signature E c front

/-- `Context::VerifyAcknowledgedNumber`. -/
def VerifyAcknowledgedNumber (req : RequestNumber) (c : Context) : Bool :=
  decide (0 < set_count req c.acknowledged_request_numbers_)

/-- Modelled from the spec: the one-argument virtual `serialize(lock)` that
`contract` calls; derived classes outside `src/` implement it. The wire form of
the spec has exactly the fields that `serialize(lock, type)` writes, so it is that
function at the Context's own `Type()`. -/
def serialize_virtual (E : Collaborators) (c : Context) : proto.Context :=
  serialize E c c.Type_

/-- `Context::contract`. -/
def contract (E : Collaborators) (c : Context) : proto.Context :=
  let output := serialize_virtual E c
  if 0 < c.signatures_.length then
    match c.signatures_ with
    | front :: _ => { output with signature := some front }
    | [] => output
  else output

/-- `Context::Serialized`. -/
def Serialized (E : Collaborators) (c : Context) : proto.Context :=
  contract E c

/-! ## The contract document -/

/-- The members of `Contract` (declared in `Contract.hpp`) that verification
reads. -/
structure Contract where
  m_ID : Identifier
  m_xmlUnsigned : String
  m_strRawFile : String
  m_listSignatures : List (List Nat)
deriving DecidableEq, Repr

/-- The code behind `Contract` verification that is declared in `Contract.hpp`
and defined elsewhere. -/
structure ContractCollaborators where
  /-- Digest of the raw file, `Identifier::CalculateDigest`. -/
  CalculateDigest : String → Identifier
  /-- Lookup `Contract::GetContractPublicNym`; a null pointer is `none`. -/
  GetContractPublicNym : Contract → Option Nym
  /-- Check `Contract::VerifySignature(theNym)`. -/
  VerifySignature : Contract → Nym → Bool

/-- Modelled from the spec: `Contract::CalculateContractID`, declared in
`Contract.hpp` and defined outside `src/`; it "calculates a hash of
m_strRawFile". -/
def CalculateContractID (K : ContractCollaborators) (d : Contract) : Identifier :=
  K.CalculateDigest d.m_strRawFile

/-- Modelled from the spec: `Contract::VerifyContractID`, defined outside `src/`;
it hashes the raw file "and compares to m_ID". -/
def VerifyContractID (K : ContractCollaborators) (d : Contract) : Bool :=
  decide (d.m_ID = CalculateContractID K d)

/-- Modelled from the spec: `Contract::VerifyContract`, defined outside `src/`; it
"calls VerifyContractID, and if that checks out, then it looks up the official
contract key inside the contract by calling GetContractPublicNym, and uses it to
verify the signature on the contract"; failure is reported as `false`. -/
def VerifyContract (K : ContractCollaborators) (d : Contract) : Bool :=
  if !VerifyContractID K d then false
  else
    match K.GetContractPublicNym d with
    | none => false
    | some nym => K.VerifySignature d nym

/-- The signing side of `Contract`, declared in `Contract.hpp` and defined
elsewhere. -/
structure ContractSigning where
  /-- Signing `Contract::SignContract(theNym, ...)` of the unsigned content: the
  signature, or `none` when signing fails. -/
  SignContract : Nym → String → Option (List Nat)
  /-- Assembly `Contract::AddBookendsAroundContent`: the raw signed form made of the
  unsigned content and the signature blocks. -/
  AddBookendsAroundContent : String → List (List Nat) → String

/-- Modelled from the spec: the signing operation of a contract document, whose
code is outside `src/`; it "serializes current unsigned content, computes digest
with the given algorithm, produces a signature tagged with role and algorithm,
appends it to the signature list, rebuilds the raw signed form, recomputes the
identifier"; the list is kept most-recent-first. -/
def Sign (K : ContractCollaborators) (S : ContractSigning) (theSigner : Nym)
    (d : Contract) : Option Contract :=
  match S.SignContract theSigner d.m_xmlUnsigned with
  | none => none
  | some sig =>
    let sigs := sig :: d.m_listSignatures
    let raw := S.AddBookendsAroundContent d.m_xmlUnsigned sigs
    some { d with m_listSignatures := sigs, m_strRawFile := raw,
                  m_ID := K.CalculateDigest raw }

/-- Modelled from the spec: `Contract::CreateContract`, declared in `Contract.hpp`
and defined outside `src/`: "you already have the unsigned version of the
contract, and you have the signer, and you just want to sign it and calculate its
new ID from the finished result". The returned flag and the document. -/
def CreateContract (K : ContractCollaborators) (S : ContractSigning)
    (strContract : String) (theSigner : Nym) (d : Contract) : Bool × Contract :=
  match Sign K S theSigner { d with m_xmlUnsigned := strContract } with
  | some signed => (true, signed)
  | none => (false, { d with m_xmlUnsigned := strContract })

/-! ## Settings -/

/-- The places where the paths of `CheckSet_str` end in `OT_FAIL`. -/
inductive SettingsFatal where
  | empty_argument
  | Set_str_trailing
  | CheckSet_str_trailing
deriving DecidableEq, Repr

/-- The test `String::Compare`: the two strings hold the same characters. -/
def String_Compare (a b : String) : Bool := decide (a = b)

/-- The calls that `Settings.cpp` makes into code outside it, over a store of
type `σ` (the `CSimpleIniA` member). -/
structure SettingsCollaborators (σ : Type) where
  /-- Lookup `CSimpleIniA::GetValue(section, key, nullptr)`; a null result is
  `none`. -/
  GetValue : σ → String → String → Option String
  /-- Update `CSimpleIniA::SetValue(section, key, value, comment, true)`: the
  `SI_Error` code and the store after the call; a null value or comment is
  `none`. -/
  SetValue : σ → String → String → Option String → Option String → Int × σ
  /-- Padding `Log::StringFill(out, string, length, append)`: whether it
  succeeded. -/
  StringFill : String → Nat → Option String → Bool

/-- The conversion of a C string to a value as the code writes it:
`(s.Exists() && !s.Compare("")) ? s.Get() : nullptr`. -/
def c_str_or_null (s : String) : Option String :=
  if String_Exists s && !String_Compare s "" then some s else none

/-- `Settings::Check_str`: the returned flag, `out_strResult`, `out_bKeyExist`. -/
def Check_str {σ : Type} (A : SettingsCollaborators σ) (ini : σ)
    (strSection strKey : String) : Except SettingsFatal (Bool × String × Bool) :=
  if !String_Exists strSection then Except.error SettingsFatal.empty_argument
  else if String_Compare strSection "" then Except.error SettingsFatal.empty_argument
  else if !String_Exists strKey then Except.error SettingsFatal.empty_argument
  else if String_Compare strKey "" then Except.error SettingsFatal.empty_argument
  else
    let szVar := A.GetValue ini strSection strKey
    let strVar := szVar.getD ""
    if String_Exists strVar && !String_Compare strVar "" then Except.ok (true, strVar, true)
    else Except.ok (true, "", false)

/-- `Settings::LogChange_str`: the returned flag; the value to log only goes into
the log text and is left out. -/
def LogChange_str {σ : Type} (A : SettingsCollaborators σ)
    (strSection strKey : String) : Except SettingsFatal Bool :=
  if !String_Exists strSection then Except.error SettingsFatal.empty_argument
  else if !String_Exists strKey then Except.error SettingsFatal.empty_argument
  else if !A.StringFill strSection 12 none then Except.ok false
  else if !A.StringFill strKey 30 (some " to:") then Except.ok false
  else Except.ok true

/-- `Settings::Set_str`: the returned flag, `out_bNewOrUpdate` (the value it had
on entry where the code does not assign it) and the store. -/
def Set_str {σ : Type} (A : SettingsCollaborators σ) (ini : σ)
    (strSection strKey strValue : String) (out_bNewOrUpdate : Bool) (strComment : String) :
    Except SettingsFatal (Bool × Bool × σ) :=
  if !String_Exists strSection then Except.error SettingsFatal.empty_argument
  else if String_Compare strSection "" then Except.error SettingsFatal.empty_argument
  else if !String_Exists strKey then Except.error SettingsFatal.empty_argument
  else if String_Compare strKey "" then Except.error SettingsFatal.empty_argument
  else
    let szValue := c_str_or_null strValue
    let szComment := c_str_or_null strComment
    match Check_str A ini strSection strKey with
    | Except.error e => Except.error e
    | Except.ok (checked, strOldValue, bOldKeyExist) =>
      if !checked then Except.ok (false, out_bNewOrUpdate, ini)
      else if bOldKeyExist && String_Compare strValue strOldValue then
        Except.ok (true, false, ini)
      else
        match LogChange_str A strSection strKey with
        | Except.error e => Except.error e
        | Except.ok logged =>
          if !logged then Except.ok (false, out_bNewOrUpdate, ini)
          else
            let rc := A.SetValue ini strSection strKey szValue szComment
            if 0 > rc.1 then Except.ok (false, out_bNewOrUpdate, rc.2)
            else if szValue = none then
              Except.ok (true, if bOldKeyExist then true else false, rc.2)
            else
              match Check_str A rc.2 strSection strKey with
              | Except.error e => Except.error e
              | Except.ok (rechecked, strNewValue, bNewKeyExist) =>
                if !rechecked then Except.ok (false, out_bNewOrUpdate, rc.2)
                else if bNewKeyExist && String_Compare strValue strNewValue then
                  Except.ok (true, true, rc.2)
                else Except.error SettingsFatal.Set_str_trailing

/-- `Settings::CheckSet_str`: the returned flag, `out_strResult`, `out_bIsNew` (the
values they had on entry where the code does not assign them) and the store;
`bNewKeyCheck` is the value of the uninitialised local. -/
def CheckSet_str {σ : Type} (A : SettingsCollaborators σ) (ini : σ)
    (strSection strKey strDefault : String) (out_strResult : String) (out_bIsNew : Bool)
    (strComment : String) (bNewKeyCheck : Bool) :
    Except SettingsFatal (Bool × String × Bool × σ) :=
  if !String_Exists strSection then Except.error SettingsFatal.empty_argument
  else if !String_Exists strKey then Except.error SettingsFatal.empty_argument
  else
    let szDefault := c_str_or_null strDefault
    match Check_str A ini strSection strKey with
    | Except.error e => Except.error e
    | Except.ok (checked, strTempResult, bKeyExist) =>
      if !checked then Except.ok (false, out_strResult, out_bIsNew, ini)
      else if bKeyExist then Except.ok (true, strTempResult, false, ini)
      else
        match Set_str A ini strSection strKey strDefault bNewKeyCheck strComment with
        | Except.error e => Except.error e
        | Except.ok (done, bNewKeyCheck1, ini1) =>
          if !done then Except.ok (false, out_strResult, out_bIsNew, ini1)
          else if szDefault = none then Except.ok (true, "", false, ini1)
          else if bNewKeyCheck1 then Except.ok (true, strDefault, true, ini1)
          else Except.error SettingsFatal.CheckSet_str_trailing

/-! ## Runs and reference functions used by the statements -/

/-- Successive `AddAcknowledgedNumber` calls, one per entry of `reqs`, in order. -/
def add_sequence (reqs : List RequestNumber) (c : Context) : Context :=
  reqs.foldl (fun st req => (AddAcknowledgedNumber req st).2) c

/-- The last `n` entries of a list. -/
def keep_last (n : Nat) (s : List Nat) : List Nat :=
  s.drop (s.length - n)

/-- The `n` largest distinct numbers of a sequence, ascending (all of them when
there are at most `n`). -/
def largest_distinct (n : Nat) (reqs : List Nat) : List Nat :=
  keep_last n (reqs.toFinset.sort (fun a b => a ≤ b))

/-- The public operations of `Context.cpp` that change the state, with
`finish_acknowledgements` and `update_signature`, which derived classes call
under the lock. -/
inductive Operation where
  | AddAcknowledgedNumber (req : RequestNumber)
  | RemoveAcknowledgedNumber (req : List RequestNumber)
  | finish_acknowledgements (req : List RequestNumber)
  | IncrementRequest
  | SetRequest (req : RequestNumber)
  | SetLocalNymboxHash (hash : Identifier)
  | SetRemoteNymboxHash (hash : Identifier)
  | update_signature
deriving DecidableEq, Repr

/-- The state after one operation; `none` when the call ends the run. -/
def Operation.apply (E : Collaborators) : Operation → Context → Option Context
  | Operation.AddAcknowledgedNumber req, c => some (opentxs.AddAcknowledgedNumber req c).2
  | Operation.RemoveAcknowledgedNumber req, c =>
    some (opentxs.RemoveAcknowledgedNumber req c).2
  | Operation.finish_acknowledgements req, c => some (opentxs.finish_acknowledgements req c)
  | Operation.IncrementRequest, c => some (opentxs.IncrementRequest c).2
  | Operation.SetRequest req, c => some (opentxs.SetRequest req c)
  | Operation.SetLocalNymboxHash hash, c => opentxs.SetLocalNymboxHash E hash c
  | Operation.SetRemoteNymboxHash hash, c => opentxs.SetRemoteNymboxHash E hash c
  | Operation.update_signature, c => (opentxs.update_signature E c).map Prod.snd

/-- The state after a sequence of operations, first to last. -/
def run_operations (E : Collaborators) : List Operation → Context → Option Context
  | [], c => some c
  | op :: ops, c =>
    match op.apply E c with
    | none => none
    | some c1 => run_operations E ops c1

/-- Oldest-first eviction as the specification words it, over the window kept in
arrival order (oldest first): a new number goes to the back, and entries leave
from the front while the window is above the cap. -/
def oldest_first_add (req : RequestNumber) (window : List RequestNumber) :
    List RequestNumber :=
  keep_last OT_MAX_ACK_NUMS (if req ∈ window then window else window ++ [req])

/-- The oldest-first window after a sequence of numbers, from the empty window. -/
def oldest_first_sequence (reqs : List RequestNumber) : List RequestNumber :=
  reqs.foldl (fun w req => oldest_first_add req w) []

/-- Successive `IncrementRequest` calls: the returned values, in call order, and
the final state. -/
def increment_requests : Nat → Context → List RequestNumber × Context
  | 0, c => ([], c)
  | n + 1, c =>
    let r := IncrementRequest c
    let rest := increment_requests n r.2
    (r.1 :: rest.1, rest.2)

/-- A concrete set of collaborators, for evaluating the operations. -/
def sample_collaborators : Collaborators :=
  { idToString := fun i => String.mk (i.map Char.ofNat)
    stringToId := fun s => s.data.map Char.toNat
    walletNym := fun i => some { ID := i }
    CalculateDigest := fun p => [p.requestnumber, p.version]
    super_update_signature := fun c => c.nym_.isSome
    super_verify_signature := fun c _ => c.nym_.isSome
    SignProto := fun n p s => (true, { s with signature := p.requestnumber :: n.ID })
    VerifyProto := fun n p s => decide (s.signature = p.requestnumber :: n.ID) }

/-- A freshly constructed server-side Context. -/
def sample_context : Context :=
  Context.create sample_collaborators ConsensusType.CONSENSUSTYPE_SERVER [1] [2]

/-- A Context whose acknowledged set is full: 2..101 were added, in order. -/
def sample_full_context : Context :=
  add_sequence (List.range' 2 100) sample_context

/-- A snapshot that lists the 101 acknowledged request numbers 1..101. -/
def sample_snapshot : proto.Context :=
  { proto.Context.empty with acknowledgedrequestnumber := List.range' 1 101 }

/-- A signed server-side Context with both hashes, numbers in every set and a
signature that the sample collaborators accept. -/
def sample_signed_context : Context :=
  { sample_context with
    local_nymbox_hash_ := [7]
    remote_nymbox_hash_ := [9]
    request_number_ := 4
    acknowledged_request_numbers_ := [3, 5]
    available_transaction_numbers_ := [10, 11]
    issued_transaction_numbers_ := [12]
    signatures_ := [{ proto.Signature.empty with signature := [4, 1] }] }

/-- The client-side view of the relationship of `sample_signed_context`: nyms and
hashes trade places. -/
def sample_client_context : Context :=
  { sample_signed_context with
    consensus_type := ConsensusType.CONSENSUSTYPE_CLIENT
    nym_ := sample_signed_context.remote_nym_
    remote_nym_ := sample_signed_context.nym_
    local_nymbox_hash_ := sample_signed_context.remote_nymbox_hash_
    remote_nymbox_hash_ := sample_signed_context.local_nymbox_hash_ }

/-- The operations that write the request counter. -/
def Operation.writes_request : Operation → Bool
  | Operation.IncrementRequest => true
  | Operation.SetRequest _ => true
  | _ => false

/-- Concrete collaborators of a contract: the digest is the list of character
codes, the contract nym is the one named by the first signature. -/
def sample_contract_collaborators : ContractCollaborators :=
  { CalculateDigest := fun raw => raw.data.map Char.toNat
    GetContractPublicNym := fun d => d.m_listSignatures.head?.map fun sig => { ID := sig }
    VerifySignature := fun d nym => decide (nym.ID = d.m_xmlUnsigned.data.map Char.toNat) }

/-- A contract whose identifier is the digest of its raw file and whose signature
verifies. -/
def sample_contract : Contract :=
  { m_ID := [97, 98]
    m_xmlUnsigned := "a"
    m_strRawFile := "ab"
    m_listSignatures := [[97]] }

/-- Both nymbox hashes, and with them the value of `NymboxHashMatch`, are the same
in two states. -/
def same_nymbox_state (E : Collaborators) (c c2 : Context) : Prop :=
  LocalNymboxHash c2 = LocalNymboxHash c ∧ RemoteNymboxHash c2 = RemoteNymboxHash c ∧
    NymboxHashMatch E c2 = NymboxHashMatch E c

/-- Whether the stored identifier is `GetID` of the state, after a run. -/
def identifier_current_after (E : Collaborators) (ops : List Operation) (c : Context) :
    Option Bool :=
  (run_operations E ops c).map fun st => decide (GetID E st = some st.id_)

/-- Collaborators whose `SignProto` always fails. -/
def sample_failing_collaborators : Collaborators :=
  { sample_collaborators with SignProto := fun _ _ s => (false, s) }

/-- A signer for the sample contract: the signature is the signer identifier, the
raw form is the content followed by one character per signature. -/
def sample_contract_signing : ContractSigning :=
  { SignContract := fun nym _ => some nym.ID
    AddBookendsAroundContent := fun content sigs =>
      content ++ String.mk (sigs.map fun _ => 'b') }

/-- A store kept as a list of entries, newest first; a set with a value always
succeeds and is read back, a set with a null value leaves the entries alone. -/
def sample_settings : SettingsCollaborators (List ((String × String) × String)) :=
  { GetValue := fun ini strSection strKey => ini.lookup (strSection, strKey)
    SetValue := fun ini strSection strKey value _ =>
      match value with
      | some v => (2, ((strSection, strKey), v) :: ini)
      | none => (1, ini)
    StringFill := fun _ _ _ => true }

/-! ## Facts about the set operations -/

theorem evict_loop_eq_keep_last (s : List Nat) :
    evict_loop s = keep_last OT_MAX_ACK_NUMS s := by
  induction s with
  | nil => rfl
  | cons x xs ih =>
    unfold evict_loop
    split
    · rename_i h
      simp only [set_erase_begin, ih, keep_last]
      simp only [List.length_cons] at h ⊢
      have e : xs.length + 1 - OT_MAX_ACK_NUMS = (xs.length - OT_MAX_ACK_NUMS) + 1 := by
        omega
      rw [e, List.drop_succ_cons]
    · rename_i h
      have e : (x :: xs).length - OT_MAX_ACK_NUMS = 0 := by omega
      rw [keep_last, e, List.drop_zero]

theorem keep_last_length (n : Nat) (s : List Nat) : (keep_last n s).length ≤ n := by
  simp only [keep_last, List.length_drop]
  omega

theorem keep_last_of_length_le {n : Nat} {s : List Nat} (h : s.length ≤ n) :
    keep_last n s = s := by
  have e : s.length - n = 0 := by omega
  rw [keep_last, e, List.drop_zero]

theorem keep_last_cons {n : Nat} {s : List Nat} (x : Nat) (h : n ≤ s.length) :
    keep_last n (x :: s) = keep_last n s := by
  have e : (x :: s).length - n = (s.length - n) + 1 := by
    simp only [List.length_cons]
    omega
  rw [keep_last, e, List.drop_succ_cons, keep_last]

theorem mem_set_insert (x y : Nat) (s : List Nat) :
    y ∈ (set_insert x s).1 ↔ y = x ∨ y ∈ s := by
  induction s with
  | nil => simp [set_insert]
  | cons a t ih =>
    unfold set_insert
    split
    · simp
    · split
      · rename_i h1 h2
        subst h2
        simp
      · simp only [List.mem_cons, ih]
        tauto

theorem set_insert_length_ge (x : Nat) (s : List Nat) :
    s.length ≤ (set_insert x s).1.length := by
  induction s with
  | nil => simp [set_insert]
  | cons a t ih =>
    unfold set_insert
    split
    · simp
    · split
      · simp
      · simpa using ih

theorem set_insert_length_le (x : Nat) (s : List Nat) :
    (set_insert x s).1.length ≤ s.length + 1 := by
  induction s with
  | nil => simp [set_insert]
  | cons a t ih =>
    unfold set_insert
    split
    · simp
    · split
      · simp
      · simpa using ih

theorem set_insert_of_lt_all (x : Nat) (s : List Nat) (h : ∀ y ∈ s, x < y) :
    (set_insert x s).1 = x :: s := by
  cases s with
  | nil => rfl
  | cons a t =>
    have ha : x < a := h a (List.mem_cons_self a t)
    simp [set_insert, ha]

theorem set_insert_sorted (x : Nat) (s : List Nat) (h : IsStdSet s) :
    IsStdSet (set_insert x s).1 := by
  induction s with
  | nil => simp [set_insert, IsStdSet]
  | cons a t ih =>
    unfold IsStdSet at h ih ⊢
    have hp := List.sorted_cons.mp h
    unfold set_insert
    split
    · rename_i hlt
      refine List.sorted_cons.mpr ⟨?_, h⟩
      intro b hb
      rcases List.mem_cons.mp hb with hb | hb
      · omega
      · have := hp.1 b hb
        omega
    · split
      · exact h
      · rename_i h1 h2
        refine List.sorted_cons.mpr ⟨?_, ih hp.2⟩
        intro b hb
        rcases (mem_set_insert x b t).mp hb with hb | hb
        · omega
        · exact hp.1 b hb

theorem keep_last_set_insert (n x : Nat) (s : List Nat) (h : IsStdSet s) :
    keep_last n (set_insert x (keep_last n s)).1 = keep_last n (set_insert x s).1 := by
  induction s with
  | nil => simp [keep_last]
  | cons a t ih =>
    by_cases hlen : t.length < n
    · rw [keep_last_of_length_le (show (a :: t).length ≤ n by simpa using hlen)]
    · have hn : n ≤ t.length := by omega
      have hp := List.sorted_cons.mp h
      rw [keep_last_cons a hn, ih hp.2]
      by_cases hxa : x ≤ a
      · have hall : ∀ y ∈ t, x < y := fun y hy => lt_of_le_of_lt hxa (hp.1 y hy)
        rw [set_insert_of_lt_all x t hall, keep_last_cons x hn]
        unfold set_insert
        split
        · rw [keep_last_cons x (by simp; omega), keep_last_cons a hn]
        · have hx : x = a := by omega
          simp only [hx, if_true]
          rw [keep_last_cons a hn]
      · have h1 : ¬ x < a := by omega
        have h2 : ¬ x = a := by omega
        have hge := set_insert_length_ge x t
        conv_rhs => unfold set_insert
        simp only [h1, h2, if_false]
        rw [keep_last_cons a (by omega)]

theorem insert_all_fold_sorted (l s : List Nat) (h : IsStdSet s) :
    IsStdSet (l.foldl (fun s it => (set_insert it s).1) s) := by
  induction l generalizing s with
  | nil => exact h
  | cons x xs ih => exact ih _ (set_insert_sorted x s h)

theorem mem_insert_all_fold (l s : List Nat) (y : Nat) :
    y ∈ l.foldl (fun s it => (set_insert it s).1) s ↔ y ∈ l ∨ y ∈ s := by
  induction l generalizing s with
  | nil => simp
  | cons x xs ih =>
    simp only [List.foldl_cons, ih, mem_set_insert, List.mem_cons]
    tauto

theorem std_set_eq_sort (s : List Nat) (h : IsStdSet s) :
    s = s.toFinset.sort (fun a b => a ≤ b) := by
  have hle : s.Sorted (fun a b => a ≤ b) := List.Sorted.le_of_lt h
  exact ((List.toFinset_sort (fun a b => a ≤ b) (List.Sorted.nodup h)).mpr hle).symm

theorem insert_all_eq_sort (l : List Nat) :
    insert_all l = l.toFinset.sort (fun a b => a ≤ b) := by
  have hs : IsStdSet (insert_all l) :=
    insert_all_fold_sorted l [] (by simp [IsStdSet])
  have hf : (insert_all l).toFinset = l.toFinset := by
    ext y
    simp [insert_all, mem_insert_all_fold]
  rw [std_set_eq_sort (insert_all l) hs, hf]

theorem add_sequence_acks (l : List Nat) (c : Context) :
    (add_sequence l c).acknowledged_request_numbers_ =
      l.foldl (fun s req => evict_loop (set_insert req s).1)
        c.acknowledged_request_numbers_ := by
  induction l generalizing c with
  | nil => rfl
  | cons x xs ih =>
    simp only [add_sequence, List.foldl_cons] at ih ⊢
    rw [ih]
    rfl

theorem capped_fold_eq (l s : List Nat) (h : IsStdSet s) :
    l.foldl (fun s req => evict_loop (set_insert req s).1) (keep_last OT_MAX_ACK_NUMS s) =
      keep_last OT_MAX_ACK_NUMS (l.foldl (fun s it => (set_insert it s).1) s) := by
  induction l generalizing s with
  | nil => rfl
  | cons x xs ih =>
    simp only [List.foldl_cons]
    rw [evict_loop_eq_keep_last, keep_last_set_insert _ x s h]
    exact ih _ (set_insert_sorted x s h)

theorem add_acknowledged_length_le (c : Context) (req : RequestNumber) :
    (AddAcknowledgedNumber req c).2.acknowledged_request_numbers_.length ≤ 100 := by
  have h := keep_last_length OT_MAX_ACK_NUMS (set_insert req c.acknowledged_request_numbers_).1
  simp only [AddAcknowledgedNumber, evict_loop_eq_keep_last]
  exact h

theorem add_sequence_largest (c : Context)
    (hempty : c.acknowledged_request_numbers_ = []) (reqs : List RequestNumber) :
    (add_sequence reqs c).acknowledged_request_numbers_ = largest_distinct 100 reqs := by
  have hk := capped_fold_eq reqs [] (by simp [IsStdSet])
  rw [add_sequence_acks, hempty]
  simp only [keep_last, List.length_nil, List.drop_nil] at hk
  rw [hk]
  have e := insert_all_eq_sort reqs
  unfold insert_all at e
  rw [e]
  rfl

/-! ## The acknowledged window -/

/-- C1: for every Context state, also one whose acknowledged set is above the cap,
and every request number, `AddAcknowledgedNumber` (a total function: its loop
removes one element per round) leaves at most 100 acknowledged numbers, and the
loop guard is false on what it leaves. -/
theorem AddAcknowledgedNumber_size_le_cap (c : Context) (req : RequestNumber) :
    (AcknowledgedNumbers (AddAcknowledgedNumber req c).2).length ≤ 100 ∧
      ¬ (OT_MAX_ACK_NUMS < (AcknowledgedNumbers (AddAcknowledgedNumber req c).2).length) := by
  have h := add_acknowledged_length_le c req
  have e : OT_MAX_ACK_NUMS = 100 := rfl
  simp only [AcknowledgedNumbers]
  omega

/-- C2: starting from an empty acknowledged set, after `AddAcknowledgedNumber` has
run over any finite sequence the set is the 100 largest distinct numbers of the
sequence; it is all distinct numbers when there are at most 100, and after 101
ascending values it is the sequence without its first (smallest) value. -/
theorem add_sequence_eq_largest_distinct (c : Context)
    (hempty : c.acknowledged_request_numbers_ = []) (reqs : List RequestNumber) :
    AcknowledgedNumbers (add_sequence reqs c) = largest_distinct 100 reqs ∧
      (reqs.toFinset.card ≤ 100 →
        AcknowledgedNumbers (add_sequence reqs c) = reqs.toFinset.sort (fun a b => a ≤ b)) ∧
      (IsStdSet reqs → reqs.length = 101 →
        AcknowledgedNumbers (add_sequence reqs c) = reqs.tail ∧
        (AcknowledgedNumbers (add_sequence reqs c)).length = 100 ∧
        ∀ first, reqs.head? = some first →
          first ∉ AcknowledgedNumbers (add_sequence reqs c)) := by
  have main : AcknowledgedNumbers (add_sequence reqs c) = largest_distinct 100 reqs :=
    add_sequence_largest c hempty reqs
  refine ⟨main, ?_, ?_⟩
  · intro hcard
    rw [main, largest_distinct]
    exact keep_last_of_length_le (by rw [Finset.length_sort]; exact hcard)
  · intro hs hlen
    have htail : AcknowledgedNumbers (add_sequence reqs c) = reqs.tail := by
      rw [main, largest_distinct, ← std_set_eq_sort reqs hs, keep_last, hlen]
      cases reqs with
      | nil => simp at hlen
      | cons a t => rfl
    refine ⟨htail, ?_, ?_⟩
    · rw [htail, List.length_tail, hlen]
    · rw [htail]
      cases reqs with
      | nil => simp at hlen
      | cons a t =>
        have hp := List.sorted_cons.mp hs
        intro first hfirst ha
        simp only [List.head?_cons, Option.some.injEq] at hfirst
        subst hfirst
        exact absurd (hp.1 _ ha) (lt_irrefl _)

/-- Witness of C2: the numbers 1..101 added in order to a fresh Context leave 100
numbers, and 1 is not among them. -/
theorem add_sequence_eq_largest_distinct_witness :
    sample_context.acknowledged_request_numbers_ = [] ∧
      (AcknowledgedNumbers (add_sequence (List.range' 1 101) sample_context)).length = 100 ∧
      1 ∉ AcknowledgedNumbers (add_sequence (List.range' 1 101) sample_context) :=
  ⟨rfl,
   ((add_sequence_eq_largest_distinct sample_context rfl (List.range' 1 101)).2.2
      (List.pairwise_lt_range' 1 101) (by decide)).2.1,
   ((add_sequence_eq_largest_distinct sample_context rfl (List.range' 1 101)).2.2
      (List.pairwise_lt_range' 1 101) (by decide)).2.2 1 rfl⟩

theorem set_erase_eq_erase (x : Nat) (s : List Nat) : (set_erase x s).1 = s.erase x := by
  induction s with
  | nil => rfl
  | cons a t ih =>
    unfold set_erase
    by_cases h : x = a
    · subst h
      simp
    · have h2 : ¬ a = x := fun e => h e.symm
      simp [h, h2, ih, List.erase_cons]

theorem set_erase_length_le (x : Nat) (s : List Nat) :
    (set_erase x s).1.length ≤ s.length := by
  rw [set_erase_eq_erase]
  exact (List.erase_sublist x s).length_le

theorem erase_fold_length_le (t s : List Nat) :
    (t.foldl (fun s it => (set_erase it s).1) s).length ≤ s.length := by
  induction t generalizing s with
  | nil => exact le_refl _
  | cons x xs ih =>
    simp only [List.foldl_cons]
    exact le_trans (ih _) (set_erase_length_le x s)

theorem remove_fold_snd (req : List Nat) (k : Nat) (s : List Nat) :
    (req.foldl (fun (acc : Nat × List Nat) number =>
      (acc.1 + (set_erase number acc.2).2, (set_erase number acc.2).1)) (k, s)).2 =
      req.foldl (fun s it => (set_erase it s).1) s := by
  induction req generalizing k s with
  | nil => rfl
  | cons x xs ih =>
    simp only [List.foldl_cons]
    exact ih _ _

theorem insert_all_length (l : List Nat) : (insert_all l).length = l.toFinset.card := by
  rw [insert_all_eq_sort, Finset.length_sort]

theorem update_signature_frame (E : Collaborators) (c : Context) (b : Bool)
    (c2 : Context) (h : update_signature E c = some (b, c2)) :
    ∃ sigs, c2 = { c with signatures_ := sigs } := by
  unfold update_signature at h
  cases hb : E.super_update_signature c with
  | false =>
    simp only [hb, Bool.not_false, if_true, Option.some.injEq, Prod.mk.injEq] at h
    exact ⟨c.signatures_, h.2.symm⟩
  | true =>
    simp only [hb, Bool.not_true, Bool.false_eq_true, if_false] at h
    cases hn : c.nym_ with
    | none => simp [hn] at h
    | some nym =>
      simp only [hn] at h
      split at h
      · simp only [Option.some.injEq, Prod.mk.injEq] at h
        exact ⟨_, h.2.symm⟩
      · simp only [Option.some.injEq, Prod.mk.injEq] at h
        exact ⟨_, h.2.symm⟩

theorem apply_keeps_cap (E : Collaborators) (op : Operation) (c c1 : Context)
    (hc : c.acknowledged_request_numbers_.length ≤ 100)
    (h : op.apply E c = some c1) :
    c1.acknowledged_request_numbers_.length ≤ 100 := by
  cases op with
  | AddAcknowledgedNumber req =>
    simp only [Operation.apply, Option.some.injEq] at h
    subst h
    exact add_acknowledged_length_le c req
  | RemoveAcknowledgedNumber req =>
    simp only [Operation.apply, Option.some.injEq] at h
    subst h
    simp only [RemoveAcknowledgedNumber, remove_fold_snd]
    exact le_trans (erase_fold_length_le _ _) hc
  | finish_acknowledgements req =>
    simp only [Operation.apply, Option.some.injEq] at h
    subst h
    simp only [finish_acknowledgements]
    exact le_trans (erase_fold_length_le _ _) hc
  | IncrementRequest =>
    simp only [Operation.apply, Option.some.injEq] at h
    subst h
    exact hc
  | SetRequest req =>
    simp only [Operation.apply, Option.some.injEq] at h
    subst h
    exact hc
  | SetLocalNymboxHash hash =>
    simp only [Operation.apply, SetLocalNymboxHash, CalculateID, Option.map_eq_some'] at h
    obtain ⟨i, _, rfl⟩ := h
    exact hc
  | SetRemoteNymboxHash hash =>
    simp only [Operation.apply, SetRemoteNymboxHash, CalculateID, Option.map_eq_some'] at h
    obtain ⟨i, _, rfl⟩ := h
    exact hc
  | update_signature =>
    simp only [Operation.apply, Option.map_eq_some'] at h
    obtain ⟨⟨b, c2⟩, h2, rfl⟩ := h
    obtain ⟨sigs, rfl⟩ := update_signature_frame E c b c2 h2
    exact hc

theorem run_keeps_cap (E : Collaborators) (ops : List Operation) (c c1 : Context)
    (hc : c.acknowledged_request_numbers_.length ≤ 100)
    (h : run_operations E ops c = some c1) :
    c1.acknowledged_request_numbers_.length ≤ 100 := by
  induction ops generalizing c with
  | nil =>
    simp only [run_operations, Option.some.injEq] at h
    subst h
    exact hc
  | cons op ops ih =>
    unfold run_operations at h
    split at h
    · exact absurd h (by simp)
    · rename_i c2 h2
      exact ih c2 (apply_keeps_cap E op c c2 hc h2) h

set_option maxRecDepth 100000 in
/-- C3, as stated, fails: the Context reconstructed from a snapshot that lists the
request numbers 1..101 holds 101 acknowledged numbers. -/
theorem load_exceeds_cap :
    (AcknowledgedNumbers (Context.load sample_collaborators
      ConsensusType.CONSENSUSTYPE_SERVER sample_snapshot)).length = 101 ∧
      ¬ (AcknowledgedNumbers (Context.load sample_collaborators
        ConsensusType.CONSENSUSTYPE_SERVER sample_snapshot)).length ≤ 100 := by
  decide

/-- C3, amended: the acknowledged set holds at most 100 numbers in every state that
is freshly constructed, or reconstructed from a snapshot with at most 100 distinct
acknowledged entries, or reached from either by any sequence of operations. -/
theorem acknowledged_size_invariant (E : Collaborators) (c0 c : Context)
    (ops : List Operation)
    (hinit : (∃ type localId remoteId, c0 = Context.create E type localId remoteId) ∨
      (∃ type serialized, serialized.acknowledgedrequestnumber.toFinset.card ≤ 100 ∧
        c0 = Context.load E type serialized))
    (hrun : run_operations E ops c0 = some c) :
    (AcknowledgedNumbers c).length ≤ 100 := by
  refine run_keeps_cap E ops c0 c ?_ hrun
  rcases hinit with ⟨type, localId, remoteId, rfl⟩ | ⟨type, serialized, hcard, rfl⟩
  · simp [Context.create]
  · simp only [Context.load, insert_all_length]
    exact hcard

/-- Witness of C3: a fresh Context after an acknowledgement and a request. -/
theorem acknowledged_size_invariant_witness :
    run_operations sample_collaborators
        [Operation.AddAcknowledgedNumber 5, Operation.IncrementRequest] sample_context =
      some (IncrementRequest (AddAcknowledgedNumber 5 sample_context).2).2 ∧
    (AcknowledgedNumbers (IncrementRequest (AddAcknowledgedNumber 5 sample_context).2).2).length
      ≤ 100 :=
  ⟨rfl, acknowledged_size_invariant sample_collaborators sample_context
    (IncrementRequest (AddAcknowledgedNumber 5 sample_context).2).2
    [Operation.AddAcknowledgedNumber 5, Operation.IncrementRequest]
    (Or.inl ⟨ConsensusType.CONSENSUSTYPE_SERVER, [1], [2], rfl⟩) rfl⟩

theorem keep_last_append_singleton (n x : Nat) (s : List Nat) (hn : 0 < n) :
    keep_last n (keep_last n s ++ [x]) = keep_last n (s ++ [x]) := by
  by_cases hlen : s.length ≤ n
  · rw [keep_last_of_length_le hlen]
  · have hdl : (List.drop (s.length - n) s).length = n := by
      rw [List.length_drop]
      omega
    simp only [keep_last, List.length_append, List.length_singleton, hdl]
    have e1 : n + 1 - n = 1 := by omega
    have e2 : s.length + 1 - n = (s.length - n) + 1 := by omega
    rw [e1, e2, List.drop_append_of_le_length (by omega),
      List.drop_append_of_le_length (by omega), List.drop_drop]

theorem oldest_first_fold (n : Nat) (hn : 0 < n) (l pre : List Nat)
    (hnd : (pre ++ l).Nodup) :
    l.foldl (fun w req => keep_last n (if req ∈ w then w else w ++ [req])) (keep_last n pre) =
      keep_last n (pre ++ l) := by
  induction l generalizing pre with
  | nil => simp
  | cons x xs ih =>
    have hx : x ∉ pre := by
      intro hmem
      have := (List.nodup_append.mp hnd).2.2
      exact this hmem (List.mem_cons_self x xs)
    have hx2 : x ∉ keep_last n pre := fun hmem => hx (List.mem_of_mem_drop hmem)
    simp only [List.foldl_cons, hx2, if_false]
    rw [keep_last_append_singleton n x pre hn]
    have hnd2 : ((pre ++ [x]) ++ xs).Nodup := by simpa using hnd
    have := ih (pre ++ [x]) hnd2
    simpa using this

theorem oldest_first_sequence_ascending (reqs : List Nat) (h : reqs.Nodup) :
    oldest_first_sequence reqs = keep_last OT_MAX_ACK_NUMS reqs := by
  have := oldest_first_fold OT_MAX_ACK_NUMS (by decide) reqs [] (by simpa using h)
  simpa [oldest_first_sequence, oldest_first_add, keep_last] using this

set_option maxRecDepth 100000 in
/-- C4, as stated, fails: after 2..101 the set is full; adding 1 inserts it (the
call returns true) and removes it again, while 2, the entry added earliest, stays.
Oldest-first eviction would drop 2 and keep 1. -/
theorem eviction_not_oldest_first :
    (AcknowledgedNumbers (add_sequence (List.range' 2 100) sample_context)).length = 100 ∧
    (AddAcknowledgedNumber 1 (add_sequence (List.range' 2 100) sample_context)).1 = true ∧
    2 ∈ AcknowledgedNumbers
      (AddAcknowledgedNumber 1 (add_sequence (List.range' 2 100) sample_context)).2 ∧
    1 ∉ AcknowledgedNumbers
      (AddAcknowledgedNumber 1 (add_sequence (List.range' 2 100) sample_context)).2 ∧
    2 ∉ oldest_first_sequence (List.range' 2 100 ++ [1]) ∧
    1 ∈ oldest_first_sequence (List.range' 2 100 ++ [1]) := by
  decide

/-- C4, amended: eviction is smallest-first. What `AddAcknowledgedNumber` removes
is the numerically smallest part of the set after the insertion; when the call
pushes a set within the cap above 100, exactly the smallest number is removed (the
new one when it is below all stored ones). Over numbers added in ascending order
this is oldest-first eviction. -/
theorem eviction_smallest_first (c : Context) (req : RequestNumber)
    (reqs : List RequestNumber) :
    (IsStdSet c.acknowledged_request_numbers_ →
      (set_insert req c.acknowledged_request_numbers_).1 =
        (set_insert req c.acknowledged_request_numbers_).1.take
          ((set_insert req c.acknowledged_request_numbers_).1.length - 100) ++
        AcknowledgedNumbers (AddAcknowledgedNumber req c).2 ∧
      (∀ x ∈ (set_insert req c.acknowledged_request_numbers_).1.take
          ((set_insert req c.acknowledged_request_numbers_).1.length - 100),
        ∀ y ∈ AcknowledgedNumbers (AddAcknowledgedNumber req c).2, x < y) ∧
      (c.acknowledged_request_numbers_.length ≤ 100 →
        100 < (set_insert req c.acknowledged_request_numbers_).1.length →
        AcknowledgedNumbers (AddAcknowledgedNumber req c).2 =
          (set_insert req c.acknowledged_request_numbers_).1.tail)) ∧
    (c.acknowledged_request_numbers_ = [] → IsStdSet reqs →
      AcknowledgedNumbers (add_sequence reqs c) = oldest_first_sequence reqs) := by
  constructor
  · intro hset
    have hins := set_insert_sorted req _ hset
    have hres : AcknowledgedNumbers (AddAcknowledgedNumber req c).2 =
        (set_insert req c.acknowledged_request_numbers_).1.drop
          ((set_insert req c.acknowledged_request_numbers_).1.length - 100) := by
      simp only [AcknowledgedNumbers, AddAcknowledgedNumber, evict_loop_eq_keep_last]
      rfl
    rw [hres]
    refine ⟨(List.take_append_drop _ _).symm, ?_, ?_⟩
    · have hsplit := hins
      unfold IsStdSet List.Sorted at hsplit
      rw [← List.take_append_drop
        ((set_insert req c.acknowledged_request_numbers_).1.length - 100)
        (set_insert req c.acknowledged_request_numbers_).1] at hsplit
      exact (List.pairwise_append.mp hsplit).2.2
    · intro hle hgt
      have hup := set_insert_length_le req c.acknowledged_request_numbers_
      have e : (set_insert req c.acknowledged_request_numbers_).1.length - 100 = 1 := by
        omega
      rw [e, List.drop_one]
  · intro hempty hs
    rw [AcknowledgedNumbers, add_sequence_largest c hempty reqs, largest_distinct,
      ← std_set_eq_sort reqs hs, oldest_first_sequence_ascending reqs (List.Sorted.nodup hs)]
    rfl

set_option maxRecDepth 100000 in
/-- Witness of C4: 1 is added to the full set 2..101 and is the number removed;
3, 5, 8 are added in ascending order to a fresh Context. -/
theorem eviction_smallest_first_witness :
    IsStdSet sample_full_context.acknowledged_request_numbers_ ∧
    sample_full_context.acknowledged_request_numbers_.length ≤ 100 ∧
    100 < (set_insert 1 sample_full_context.acknowledged_request_numbers_).1.length ∧
    AcknowledgedNumbers (AddAcknowledgedNumber 1 sample_full_context).2 =
      (set_insert 1 sample_full_context.acknowledged_request_numbers_).1.tail ∧
    sample_context.acknowledged_request_numbers_ = [] ∧
    IsStdSet [3, 5, 8] ∧
    AcknowledgedNumbers (add_sequence [3, 5, 8] sample_context) =
      oldest_first_sequence [3, 5, 8] :=
  ⟨by decide, by decide, by decide,
   ((eviction_smallest_first sample_full_context 1 [3, 5, 8]).1 (by decide)).2.2
     (by decide) (by decide),
   rfl, by decide,
   (eviction_smallest_first sample_context 1 [3, 5, 8]).2 rfl (by decide)⟩

theorem mem_finish_fold (req acks acc : List Nat) (y : Nat) :
    y ∈ acks.foldl (fun toErase number =>
        if 0 = set_count number req then (set_insert number toErase).1 else toErase) acc ↔
      y ∈ acc ∨ (y ∈ acks ∧ y ∉ req) := by
  induction acks generalizing acc with
  | nil => simp
  | cons a t ih =>
    simp only [List.foldl_cons, ih, List.mem_cons]
    by_cases ha : a ∈ req
    · have h0 : ¬ (0 = set_count a req) := by simp [set_count, ha]
      simp only [h0, if_false]
      constructor
      · rintro (h | h)
        · exact Or.inl h
        · exact Or.inr ⟨Or.inr h.1, h.2⟩
      · rintro (h | ⟨h | h, hn⟩)
        · exact Or.inl h
        · exact absurd (h ▸ ha) hn
        · exact Or.inr ⟨h, hn⟩
    · have h0 : 0 = set_count a req := by simp [set_count, ha]
      simp only [h0, if_true, mem_set_insert]
      constructor
      · rintro ((h | h) | h)
        · exact Or.inr ⟨Or.inl h, h ▸ ha⟩
        · exact Or.inl h
        · exact Or.inr ⟨Or.inr h.1, h.2⟩
      · rintro (h | ⟨h | h, hn⟩)
        · exact Or.inl (Or.inr h)
        · exact Or.inl (Or.inl h)
        · exact Or.inr ⟨h, hn⟩

theorem mem_finish_toErase (req acks : List Nat) (y : Nat) :
    y ∈ finish_toErase req acks ↔ y ∈ acks ∧ y ∉ req := by
  simp [finish_toErase, mem_finish_fold]

theorem erase_fold_eq_filter (t s : List Nat) (h : s.Nodup) :
    t.foldl (fun s it => (set_erase it s).1) s = s.filter (fun a => decide (a ∉ t)) := by
  induction t generalizing s with
  | nil => simp
  | cons x xs ih =>
    simp only [List.foldl_cons]
    rw [set_erase_eq_erase, ih _ (h.erase x), h.erase_eq_filter x, List.filter_filter]
    apply List.filter_congr
    intro a _
    by_cases hax : a = x <;> simp [hax]

/-! ## Reconciliation -/

/-- C5: for every Context state whose acknowledged set is A and every set S,
`finish_acknowledgements(S)` leaves exactly A ∩ S as the acknowledged set: only
that member changes, a number is kept exactly when it is in both A and S, and the
result is again a set. -/
theorem finish_acknowledgements_is_intersection (c : Context) (req : List RequestNumber)
    (hset : IsStdSet c.acknowledged_request_numbers_) :
    finish_acknowledgements req c =
      { c with acknowledged_request_numbers_ :=
          c.acknowledged_request_numbers_.filter (fun x => decide (x ∈ req)) } ∧
    (∀ x, x ∈ AcknowledgedNumbers (finish_acknowledgements req c) ↔
      x ∈ AcknowledgedNumbers c ∧ x ∈ req) ∧
    IsStdSet (AcknowledgedNumbers (finish_acknowledgements req c)) := by
  have hres : finish_acknowledgements req c =
      { c with acknowledged_request_numbers_ :=
          c.acknowledged_request_numbers_.filter (fun x => decide (x ∈ req)) } := by
    simp only [finish_acknowledgements]
    rw [erase_fold_eq_filter _ _ (List.Sorted.nodup hset)]
    congr 1
    apply List.filter_congr
    intro a ha
    simp [mem_finish_toErase, ha]
  refine ⟨hres, ?_, ?_⟩
  · intro x
    rw [hres]
    simp [AcknowledgedNumbers]
  · rw [hres]
    exact List.Sorted.filter _ hset

/-- Witness of C5: the set 1, 3, 5 reconciled with 3, 5, 7 is 3, 5. -/
theorem finish_acknowledgements_is_intersection_witness :
    IsStdSet (add_sequence [1, 3, 5] sample_context).acknowledged_request_numbers_ ∧
    AcknowledgedNumbers
      (finish_acknowledgements [3, 5, 7] (add_sequence [1, 3, 5] sample_context)) = [3, 5] :=
  ⟨by decide,
   by
    rw [(finish_acknowledgements_is_intersection
      (add_sequence [1, 3, 5] sample_context) [3, 5, 7] (by decide)).1]
    decide⟩

/-! ## Nymbox hashes -/

theorem nymbox_match_iff_have (E : Collaborators) (c : Context) :
    NymboxHashMatch E c = true ↔
      HaveLocalNymboxHash E c = true ∧ HaveRemoteNymboxHash E c = true ∧
        c.local_nymbox_hash_ = c.remote_nymbox_hash_ := by
  unfold NymboxHashMatch
  cases HaveLocalNymboxHash E c <;> cases HaveRemoteNymboxHash E c <;> simp

theorem sample_idToString_exists (i : Identifier) :
    String_Exists (sample_collaborators.idToString i) = true ↔ i ≠ [] := by
  cases i with
  | nil => simp [String_Exists, sample_collaborators, String.length]
  | cons a t => simp [String_Exists, sample_collaborators, String.length]

theorem IDVersion_isSome (E : Collaborators) (c : Context)
    (htype : c.Type_ = ConsensusType.CONSENSUSTYPE_SERVER ∨
      c.Type_ = ConsensusType.CONSENSUSTYPE_CLIENT) :
    ∃ p, IDVersion E c = some p := by
  unfold IDVersion
  rcases htype with h | h <;> simp [h]

theorem CalculateID_some (E : Collaborators) (c : Context)
    (htype : c.Type_ = ConsensusType.CONSENSUSTYPE_SERVER ∨
      c.Type_ = ConsensusType.CONSENSUSTYPE_CLIENT) :
    ∃ i, CalculateID E c = some { c with id_ := i } := by
  obtain ⟨p, hp⟩ := IDVersion_isSome E c htype
  exact ⟨E.CalculateDigest p, by simp [CalculateID, GetID, hp]⟩

theorem SetLocalNymboxHash_some (E : Collaborators) (c : Context) (H : Identifier)
    (htype : c.Type_ = ConsensusType.CONSENSUSTYPE_SERVER ∨
      c.Type_ = ConsensusType.CONSENSUSTYPE_CLIENT) :
    ∃ c1, SetLocalNymboxHash E H c = some c1 ∧ c1.local_nymbox_hash_ = H ∧
      c1.remote_nymbox_hash_ = c.remote_nymbox_hash_ ∧ c1.Type_ = c.Type_ := by
  obtain ⟨i, e⟩ := CalculateID_some E { c with local_nymbox_hash_ := H } htype
  exact ⟨_, e, rfl, rfl, rfl⟩

theorem SetRemoteNymboxHash_some (E : Collaborators) (c : Context) (H : Identifier)
    (htype : c.Type_ = ConsensusType.CONSENSUSTYPE_SERVER ∨
      c.Type_ = ConsensusType.CONSENSUSTYPE_CLIENT) :
    ∃ c1, SetRemoteNymboxHash E H c = some c1 ∧
      c1.local_nymbox_hash_ = c.local_nymbox_hash_ ∧ c1.remote_nymbox_hash_ = H ∧
      c1.Type_ = c.Type_ := by
  obtain ⟨i, e⟩ := CalculateID_some E { c with remote_nymbox_hash_ := H } htype
  exact ⟨_, e, rfl, rfl, rfl⟩

/-- C6: `NymboxHashMatch` is true exactly when the local hash is set, the remote
hash is set and the two are equal, where a hash is set when its string form exists;
with a string form that is empty only for the empty identifier, that is: both
non-empty and byte-equal. It is false when either is empty, also when both are. -/
theorem NymboxHashMatch_iff (E : Collaborators) (c : Context)
    (hstr : ∀ i : Identifier, String_Exists (E.idToString i) = true ↔ i ≠ []) :
    (NymboxHashMatch E c = true ↔
      HaveLocalNymboxHash E c = true ∧ HaveRemoteNymboxHash E c = true ∧
        c.local_nymbox_hash_ = c.remote_nymbox_hash_) ∧
    (NymboxHashMatch E c = true ↔
      c.local_nymbox_hash_ ≠ [] ∧ c.remote_nymbox_hash_ ≠ [] ∧
        c.local_nymbox_hash_ = c.remote_nymbox_hash_) ∧
    (c.local_nymbox_hash_ = [] ∨ c.remote_nymbox_hash_ = [] →
      NymboxHashMatch E c = false) := by
  have key : NymboxHashMatch E c = true ↔
      c.local_nymbox_hash_ ≠ [] ∧ c.remote_nymbox_hash_ ≠ [] ∧
        c.local_nymbox_hash_ = c.remote_nymbox_hash_ := by
    rw [nymbox_match_iff_have, HaveLocalNymboxHash, HaveRemoteNymboxHash, hstr, hstr]
  refine ⟨nymbox_match_iff_have E c, key, ?_⟩
  intro h
  cases hm : NymboxHashMatch E c with
  | false => rfl
  | true =>
    have := key.mp hm
    rcases h with h | h
    · exact absurd h this.1
    · exact absurd h this.2.1

/-- Witness of C6: equal non-empty hashes match; two unset hashes do not. -/
theorem NymboxHashMatch_iff_witness :
    (∀ i : Identifier, String_Exists (sample_collaborators.idToString i) = true ↔ i ≠ []) ∧
    NymboxHashMatch sample_collaborators
      { sample_context with local_nymbox_hash_ := [7], remote_nymbox_hash_ := [7] } = true ∧
    NymboxHashMatch sample_collaborators sample_context = false :=
  ⟨sample_idToString_exists,
   (NymboxHashMatch_iff sample_collaborators
      { sample_context with local_nymbox_hash_ := [7], remote_nymbox_hash_ := [7] }
      sample_idToString_exists).2.1.mpr (by decide),
   (NymboxHashMatch_iff sample_collaborators sample_context sample_idToString_exists).2.2
     (Or.inl rfl)⟩

theorem SetLocalNymboxHash_fields (E : Collaborators) (c c1 : Context) (H : Identifier)
    (h : SetLocalNymboxHash E H c = some c1) :
    c1.local_nymbox_hash_ = H ∧ c1.remote_nymbox_hash_ = c.remote_nymbox_hash_ := by
  simp only [SetLocalNymboxHash, CalculateID, Option.map_eq_some'] at h
  obtain ⟨i, _, rfl⟩ := h
  exact ⟨rfl, rfl⟩

theorem SetRemoteNymboxHash_fields (E : Collaborators) (c c1 : Context) (H : Identifier)
    (h : SetRemoteNymboxHash E H c = some c1) :
    c1.local_nymbox_hash_ = c.local_nymbox_hash_ ∧ c1.remote_nymbox_hash_ = H := by
  simp only [SetRemoteNymboxHash, CalculateID, Option.map_eq_some'] at h
  obtain ⟨i, _, rfl⟩ := h
  exact ⟨rfl, rfl⟩

/-- C7: for every Context state, every non-empty hash H1 and every hash H2 other
than H1: whenever `SetLocalNymboxHash(H1)` and then `SetRemoteNymboxHash(H1)`
return, `NymboxHashMatch` is true, and whenever a further `SetRemoteNymboxHash(H2)`
returns, `NymboxHashMatch` is false; and the three calls do return when the
Context is of server or client type (the identifier recomputation is fatal for
any other type tag). -/
theorem nymbox_hash_scenario (E : Collaborators) (c : Context) (H1 H2 : Identifier)
    (hstr : ∀ i : Identifier, String_Exists (E.idToString i) = true ↔ i ≠ [])
    (h1 : H1 ≠ []) (h2 : H2 ≠ H1) :
    (∀ c1 c2, SetLocalNymboxHash E H1 c = some c1 → SetRemoteNymboxHash E H1 c1 = some c2 →
      NymboxHashMatch E c2 = true ∧
      ∀ c3, SetRemoteNymboxHash E H2 c2 = some c3 → NymboxHashMatch E c3 = false) ∧
    (c.Type_ = ConsensusType.CONSENSUSTYPE_SERVER ∨
        c.Type_ = ConsensusType.CONSENSUSTYPE_CLIENT →
      ∃ c1 c2 c3, SetLocalNymboxHash E H1 c = some c1 ∧
        SetRemoteNymboxHash E H1 c1 = some c2 ∧ NymboxHashMatch E c2 = true ∧
        SetRemoteNymboxHash E H2 c2 = some c3 ∧ NymboxHashMatch E c3 = false) := by
  have part : ∀ c1 c2, SetLocalNymboxHash E H1 c = some c1 →
      SetRemoteNymboxHash E H1 c1 = some c2 →
      NymboxHashMatch E c2 = true ∧
      ∀ c3, SetRemoteNymboxHash E H2 c2 = some c3 → NymboxHashMatch E c3 = false := by
    intro c1 c2 e1 e2
    have f1 := SetLocalNymboxHash_fields E c c1 H1 e1
    have f2 := SetRemoteNymboxHash_fields E c1 c2 H1 e2
    constructor
    · rw [nymbox_match_iff_have, HaveLocalNymboxHash, HaveRemoteNymboxHash, hstr, hstr,
        f2.1, f2.2, f1.1]
      exact ⟨h1, h1, rfl⟩
    · intro c3 e3
      have f3 := SetRemoteNymboxHash_fields E c2 c3 H2 e3
      cases hm : NymboxHashMatch E c3 with
      | false => rfl
      | true =>
        rw [nymbox_match_iff_have, f3.1, f3.2, f2.1, f1.1] at hm
        exact absurd hm.2.2.symm h2
  refine ⟨part, ?_⟩
  intro htype
  obtain ⟨c1, e1, _, _, t1⟩ := SetLocalNymboxHash_some E c H1 htype
  obtain ⟨c2, e2, _, _, t2⟩ := SetRemoteNymboxHash_some E c1 H1 (by rw [t1]; exact htype)
  obtain ⟨c3, e3, _, _, _⟩ := SetRemoteNymboxHash_some E c2 H2 (by rw [t2, t1]; exact htype)
  exact ⟨c1, c2, c3, e1, e2, (part c1 c2 e1 e2).1, e3, (part c1 c2 e1 e2).2 c3 e3⟩

/-- Witness of C7: hash 7 on both sides of a fresh server Context, then hash 9 on
the remote side. -/
theorem nymbox_hash_scenario_witness :
    (∀ i : Identifier, String_Exists (sample_collaborators.idToString i) = true ↔ i ≠ []) ∧
    ([7] : Identifier) ≠ [] ∧ ([9] : Identifier) ≠ [7] ∧
    sample_context.Type_ = ConsensusType.CONSENSUSTYPE_SERVER ∧
    ∃ c1 c2 c3, SetLocalNymboxHash sample_collaborators [7] sample_context = some c1 ∧
      SetRemoteNymboxHash sample_collaborators [7] c1 = some c2 ∧
      NymboxHashMatch sample_collaborators c2 = true ∧
      SetRemoteNymboxHash sample_collaborators [9] c2 = some c3 ∧
      NymboxHashMatch sample_collaborators c3 = false :=
  ⟨sample_idToString_exists, by decide, by decide, rfl,
   (nymbox_hash_scenario sample_collaborators sample_context [7] [9]
     sample_idToString_exists (by decide) (by decide)).2 (Or.inl rfl)⟩

/-! ## The request counter -/

theorem increment_requests_values (N : Nat) (c : Context)
    (h : c.request_number_ + N < UINT64_RANGE) :
    (increment_requests N c).1 = List.range' (c.request_number_ + 1) N ∧
      (increment_requests N c).2.request_number_ = c.request_number_ + N := by
  induction N generalizing c with
  | zero => exact ⟨rfl, rfl⟩
  | succ n ih =>
    have hmod : (c.request_number_ + 1) % UINT64_RANGE = c.request_number_ + 1 :=
      Nat.mod_eq_of_lt (by omega)
    have hstep : (IncrementRequest c).2.request_number_ = c.request_number_ + 1 := by
      simp only [IncrementRequest, hmod]
    have hret : (IncrementRequest c).1 = c.request_number_ + 1 := by
      simp only [IncrementRequest, hmod]
    have hnext := ih (IncrementRequest c).2 (by rw [hstep]; omega)
    simp only [increment_requests, List.range'_succ]
    rw [hnext.1, hnext.2, hstep, hret]
    exact ⟨rfl, by omega⟩

/-- C8: for a Context whose request counter is r and every N with r + N below 2^64,
N successive `IncrementRequest` calls return r+1, ..., r+N in this order (strictly
increasing), each call returns the counter value it stores, `Request` is r+N
afterwards, and a freshly constructed Context starts at 0. -/
theorem IncrementRequest_sequence (c : Context) (N : Nat)
    (h : c.request_number_ + N < 2 ^ 64) :
    (increment_requests N c).1 = List.range' (Request c + 1) N ∧
    (increment_requests N c).1.Sorted (fun a b => a < b) ∧
    Request (increment_requests N c).2 = Request c + N ∧
    (IncrementRequest c).1 = Request (IncrementRequest c).2 ∧
    (∀ (E : Collaborators) (type : ConsensusType) (localId remoteId : Identifier),
      Request (Context.create E type localId remoteId) = 0) := by
  have hv := increment_requests_values N c h
  refine ⟨hv.1, ?_, hv.2, rfl, fun _ _ _ _ => rfl⟩
  rw [hv.1]
  exact List.pairwise_lt_range' _ _

/-- Witness of C8: three calls on a fresh Context return 1, 2, 3. -/
theorem IncrementRequest_sequence_witness :
    sample_context.request_number_ + 3 < 2 ^ 64 ∧
    (increment_requests 3 sample_context).1 = [1, 2, 3] ∧
    Request (increment_requests 3 sample_context).2 = 3 :=
  ⟨by decide,
   (IncrementRequest_sequence sample_context 3 (by decide)).1,
   (IncrementRequest_sequence sample_context 3 (by decide)).2.2.1⟩

/-! ## The single signature -/

/-- C9: `validate` returns true exactly when one signature is stored, the base
check accepts it and the local nym's `VerifyProto` accepts it against `SigVersion`
with that signature attached; with zero or with two or more stored signatures it
returns false, whatever the signatures are. -/
theorem validate_iff (E : Collaborators) (c : Context) :
    (validate E c = some true ↔
      ∃ sig nym, c.signatures_ = [sig] ∧ E.super_verify_signature c sig = true ∧
        c.nym_ = some nym ∧
        E.VerifyProto nym { SigVersion E c with signature := some sig } sig = true) ∧
    (c.signatures_.length ≠ 1 → validate E c = some false) := by
  constructor
  · constructor
    · intro h
      unfold validate at h
      split at h
      · simp at h
      · rename_i hlen
        match hs : c.signatures_, hlen with
        | [], hlen => simp at hlen
        | [sig], _ =>
          simp only [hs] at h
          unfold verify_signature at h
          cases hb : E.super_verify_signature c sig with
          | false => simp [hb] at h
          | true =>
            simp only [hb, Bool.not_true, Bool.false_eq_true, if_false] at h
            cases hn : c.nym_ with
            | none => simp [hn] at h
            | some nym =>
              simp only [hn, Option.some.injEq] at h
              exact ⟨sig, nym, rfl, hb, rfl, h⟩
        | _ :: _ :: _, hlen => simp at hlen
    · rintro ⟨sig, nym, hs, hb, hn, hv⟩
      simp [validate, verify_signature, hs, hb, hn, hv]
  · intro hlen
    have h1 : 1 ≠ c.signatures_.length := fun e => hlen e.symm
    simp [validate, h1]

/-- Witness of C9: one signature that verifies is valid; a fresh Context, which
holds no signature, is not. -/
theorem validate_iff_witness :
    validate sample_collaborators
      { sample_context with signatures_ :=
          [{ proto.Signature.empty with signature := [0, 1] }] } = some true ∧
    sample_context.signatures_.length ≠ 1 ∧
    validate sample_collaborators sample_context = some false :=
  ⟨(validate_iff sample_collaborators
      { sample_context with signatures_ :=
          [{ proto.Signature.empty with signature := [0, 1] }] }).1.mpr
      ⟨{ proto.Signature.empty with signature := [0, 1] }, { ID := [1] },
        rfl, rfl, rfl, by decide⟩,
   by decide,
   (validate_iff sample_collaborators sample_context).2 (by decide)⟩

/-- C10: when the base update step succeeds and the local nym's signing succeeds,
`update_signature` returns true and the Context holds exactly one signature, the
one `SignProto` produced for `SigVersion` carrying a signature field of role
`SIGROLE_CONTEXT`, whatever was stored before; no other member changes. -/
theorem update_signature_replaces (E : Collaborators) (c : Context) (nym : Nym)
    (hbase : E.super_update_signature c = true)
    (hnym : c.nym_ = some nym)
    (hsign : (E.SignProto nym (signing_input E c).1 (signing_input E c).2).1 = true) :
    update_signature E c = some (true, { c with signatures_ :=
      [(E.SignProto nym (signing_input E c).1 (signing_input E c).2).2] }) ∧
    (signing_input E c).1 =
      { SigVersion E c with signature := some (signing_input E c).2 } ∧
    (signing_input E c).2.role = SignatureRole.SIGROLE_CONTEXT ∧
    (signing_input E c).2.version = 2 := by
  obtain ⟨v, t, n, rn, i, sg, l, r, rq, a, av, iss⟩ := c
  simp only at hnym
  subst hnym
  have hin : signing_input E ⟨v, t, some nym, rn, i, [], l, r, rq, a, av, iss⟩ =
      signing_input E ⟨v, t, some nym, rn, i, sg, l, r, rq, a, av, iss⟩ := rfl
  refine ⟨?_, rfl, rfl, rfl⟩
  simp only [update_signature, hbase, hin, hsign, Bool.not_true, Bool.false_eq_true,
    if_false, if_true]

/-- Witness of C10: a Context that holds two stale signatures is signed anew and
holds one signature afterwards. -/
theorem update_signature_replaces_witness :
    sample_collaborators.super_update_signature
      { sample_context with signatures_ := [proto.Signature.empty, proto.Signature.empty] }
      = true ∧
    ({ sample_context with
      signatures_ := [proto.Signature.empty, proto.Signature.empty] } : Context).nym_ =
      some { ID := [1] } ∧
    (update_signature sample_collaborators
      { sample_context with signatures_ := [proto.Signature.empty, proto.Signature.empty] })
      = some (true, { sample_context with signatures_ :=
          [{ version := 2, role := SignatureRole.SIGROLE_CONTEXT, hashtype := 0,
             credentialid := "", signature := [0, 1] }] }) :=
  ⟨rfl, rfl, by
    rw [(update_signature_replaces sample_collaborators
      { sample_context with signatures_ := [proto.Signature.empty, proto.Signature.empty] }
      { ID := [1] } rfl rfl rfl).1]
    rfl⟩

/-! ## Serialization round trip -/

theorem insert_all_of_std_set (s : List Nat) (h : IsStdSet s) : insert_all s = s := by
  rw [insert_all_eq_sort]
  exact (std_set_eq_sort s h).symm

theorem serialize_fields (E : Collaborators) (c : Context) (type : ConsensusType) :
    (serialize E c type).version = c.version_ ∧
    (serialize E c type).type = type ∧
    (serialize E c type).localnymboxhash = E.idToString c.local_nymbox_hash_ ∧
    (serialize E c type).remotenymboxhash = E.idToString c.remote_nymbox_hash_ ∧
    (serialize E c type).requestnumber = c.request_number_ ∧
    (serialize E c type).acknowledgedrequestnumber = c.acknowledged_request_numbers_ ∧
    (serialize E c type).availabletransactionnumber = c.available_transaction_numbers_ ∧
    (serialize E c type).issuedtransactionnumber = c.issued_transaction_numbers_ ∧
    (serialize E c type).signature = none := by
  unfold serialize
  cases c.nym_ <;> cases c.remote_nym_ <;> exact ⟨rfl, rfl, rfl, rfl, rfl, rfl, rfl, rfl, rfl⟩

theorem contract_eq (E : Collaborators) (c : Context) :
    contract E c = { serialize E c c.Type_ with signature := c.signatures_.head? } := by
  unfold contract serialize_virtual
  cases hs : c.signatures_ with
  | nil =>
    have h := (serialize_fields E c c.Type_).2.2.2.2.2.2.2.2
    simp only [List.length_nil, lt_irrefl, if_false, List.head?_nil]
    rw [← h]
  | cons a t => simp

theorem Serialized_fields (E : Collaborators) (c : Context) :
    (Serialized E c).version = c.version_ ∧
    (Serialized E c).localnymboxhash = E.idToString c.local_nymbox_hash_ ∧
    (Serialized E c).remotenymboxhash = E.idToString c.remote_nymbox_hash_ ∧
    (Serialized E c).requestnumber = c.request_number_ ∧
    (Serialized E c).acknowledgedrequestnumber = c.acknowledged_request_numbers_ ∧
    (Serialized E c).availabletransactionnumber = c.available_transaction_numbers_ ∧
    (Serialized E c).issuedtransactionnumber = c.issued_transaction_numbers_ ∧
    (Serialized E c).signature = c.signatures_.head? := by
  have h := serialize_fields E c c.Type_
  rw [Serialized, contract_eq]
  exact ⟨h.1, h.2.2.1, h.2.2.2.1, h.2.2.2.2.1, h.2.2.2.2.2.1, h.2.2.2.2.2.2.1,
    h.2.2.2.2.2.2.2.1, rfl⟩

theorem serialize_round_trip_fields (E : Collaborators) (c : Context)
    (type : ConsensusType)
    (hlocal : E.stringToId (E.idToString c.local_nymbox_hash_) = c.local_nymbox_hash_)
    (hremote : E.stringToId (E.idToString c.remote_nymbox_hash_) = c.remote_nymbox_hash_)
    (hacks : IsStdSet c.acknowledged_request_numbers_)
    (havail : IsStdSet c.available_transaction_numbers_)
    (hissued : IsStdSet c.issued_transaction_numbers_) :
    (Context.load E type (Serialized E c)).request_number_ = c.request_number_ ∧
    (Context.load E type (Serialized E c)).acknowledged_request_numbers_ =
      c.acknowledged_request_numbers_ ∧
    (Context.load E type (Serialized E c)).available_transaction_numbers_ =
      c.available_transaction_numbers_ ∧
    (Context.load E type (Serialized E c)).issued_transaction_numbers_ =
      c.issued_transaction_numbers_ ∧
    (Context.load E type (Serialized E c)).local_nymbox_hash_ = c.local_nymbox_hash_ ∧
    (Context.load E type (Serialized E c)).remote_nymbox_hash_ = c.remote_nymbox_hash_ := by
  have h := Serialized_fields E c
  simp only [Context.load]
  rw [h.2.1, h.2.2.1, h.2.2.2.1, h.2.2.2.2.1, h.2.2.2.2.2.1, h.2.2.2.2.2.2.1,
    insert_all_of_std_set _ hacks, insert_all_of_std_set _ havail,
    insert_all_of_std_set _ hissued, hlocal, hremote]
  exact ⟨rfl, rfl, rfl, rfl, rfl, rfl⟩

/-- C11: the Context reconstructed from `c.Serialized()` has the request number,
the acknowledged set, the available and issued transaction-number sets and the
local and remote nymbox hashes of `c`, given that the string form of the two
hashes converts back to them (the three sets being sets). -/
theorem serialize_round_trip (E : Collaborators) (c : Context) (type : ConsensusType)
    (hlocal : E.stringToId (E.idToString c.local_nymbox_hash_) = c.local_nymbox_hash_)
    (hremote : E.stringToId (E.idToString c.remote_nymbox_hash_) = c.remote_nymbox_hash_)
    (hacks : IsStdSet c.acknowledged_request_numbers_)
    (havail : IsStdSet c.available_transaction_numbers_)
    (hissued : IsStdSet c.issued_transaction_numbers_) :
    Request (Context.load E type (Serialized E c)) = Request c ∧
    AcknowledgedNumbers (Context.load E type (Serialized E c)) = AcknowledgedNumbers c ∧
    (Context.load E type (Serialized E c)).available_transaction_numbers_ =
      c.available_transaction_numbers_ ∧
    (Context.load E type (Serialized E c)).issued_transaction_numbers_ =
      c.issued_transaction_numbers_ ∧
    LocalNymboxHash (Context.load E type (Serialized E c)) = LocalNymboxHash c ∧
    RemoteNymboxHash (Context.load E type (Serialized E c)) = RemoteNymboxHash c := by
  exact serialize_round_trip_fields E c type hlocal hremote hacks havail hissued

/-- Witness of C11: the signed sample Context, serialized and loaded again. -/
theorem serialize_round_trip_witness :
    sample_collaborators.stringToId
      (sample_collaborators.idToString sample_signed_context.local_nymbox_hash_) =
      sample_signed_context.local_nymbox_hash_ ∧
    sample_collaborators.stringToId
      (sample_collaborators.idToString sample_signed_context.remote_nymbox_hash_) =
      sample_signed_context.remote_nymbox_hash_ ∧
    IsStdSet sample_signed_context.acknowledged_request_numbers_ ∧
    IsStdSet sample_signed_context.available_transaction_numbers_ ∧
    IsStdSet sample_signed_context.issued_transaction_numbers_ ∧
    Request (Context.load sample_collaborators ConsensusType.CONSENSUSTYPE_SERVER
      (Serialized sample_collaborators sample_signed_context)) = 4 ∧
    AcknowledgedNumbers (Context.load sample_collaborators ConsensusType.CONSENSUSTYPE_SERVER
      (Serialized sample_collaborators sample_signed_context)) = [3, 5] :=
  ⟨by decide, by decide, by decide, by decide, by decide,
   (serialize_round_trip sample_collaborators sample_signed_context
     ConsensusType.CONSENSUSTYPE_SERVER (by decide) (by decide) (by decide) (by decide)
     (by decide)).1,
   (serialize_round_trip sample_collaborators sample_signed_context
     ConsensusType.CONSENSUSTYPE_SERVER (by decide) (by decide) (by decide) (by decide)
     (by decide)).2.1⟩

theorem SigVersion_congr (E : Collaborators) (c c2 : Context)
    (hv : c2.version_ = c.version_) (ht : c2.consensus_type = c.consensus_type)
    (hn : c2.nym_ = c.nym_) (hrn : c2.remote_nym_ = c.remote_nym_)
    (hl : c2.local_nymbox_hash_ = c.local_nymbox_hash_)
    (hr : c2.remote_nymbox_hash_ = c.remote_nymbox_hash_)
    (hq : c2.request_number_ = c.request_number_)
    (ha : c2.acknowledged_request_numbers_ = c.acknowledged_request_numbers_)
    (hav : c2.available_transaction_numbers_ = c.available_transaction_numbers_)
    (hi : c2.issued_transaction_numbers_ = c.issued_transaction_numbers_) :
    SigVersion E c2 = SigVersion E c := by
  simp only [SigVersion, serialize, Context.Type_, hv, ht, hn, hrn, hl, hr, hq, ha, hav, hi]

theorem validate_congr (E : Collaborators) (c c2 : Context)
    (hs : c2.signatures_ = c.signatures_) (hn : c2.nym_ = c.nym_)
    (hv : SigVersion E c2 = SigVersion E c)
    (hb : ∀ sig, E.super_verify_signature c2 sig = E.super_verify_signature c sig) :
    validate E c2 = validate E c := by
  simp only [validate, verify_signature, hs, hn, hv, hb]

theorem validate_true_signatures (E : Collaborators) (c : Context)
    (h : validate E c = some true) : ∃ sig, c.signatures_ = [sig] := by
  unfold validate at h
  split at h
  · simp at h
  · rename_i hlen
    match hs : c.signatures_, hlen with
    | [], hlen => simp at hlen
    | [sig], _ => exact ⟨sig, rfl⟩
    | _ :: _ :: _, hlen => simp at hlen

/-- C12: for a Context on which `validate` is true, the Context reconstructed from
`c.Serialized()` with the same type and the same resolved nyms has the `SigVersion`
of `c` and its single signature, and `validate` is true on it, given that the
hashes convert back from their string form, that the three sets are sets, and that
the base check of `Signable` does not tell the two objects apart. -/
theorem validate_round_trip (E : Collaborators) (c : Context)
    (hlocal : E.stringToId (E.idToString c.local_nymbox_hash_) = c.local_nymbox_hash_)
    (hremote : E.stringToId (E.idToString c.remote_nymbox_hash_) = c.remote_nymbox_hash_)
    (hacks : IsStdSet c.acknowledged_request_numbers_)
    (havail : IsStdSet c.available_transaction_numbers_)
    (hissued : IsStdSet c.issued_transaction_numbers_)
    (hnym : (Context.load E c.Type_ (Serialized E c)).nym_ = c.nym_)
    (hrnym : (Context.load E c.Type_ (Serialized E c)).remote_nym_ = c.remote_nym_)
    (hbase : ∀ sig, E.super_verify_signature (Context.load E c.Type_ (Serialized E c)) sig =
      E.super_verify_signature c sig)
    (hvalid : validate E c = some true) :
    SigVersion E (Context.load E c.Type_ (Serialized E c)) = SigVersion E c ∧
    (Context.load E c.Type_ (Serialized E c)).signatures_ = c.signatures_ ∧
    (∃ sig, c.signatures_ = [sig]) ∧
    validate E (Context.load E c.Type_ (Serialized E c)) = some true := by
  have hrt := serialize_round_trip_fields E c c.Type_ hlocal hremote hacks havail hissued
  obtain ⟨sig, hsig⟩ := validate_true_signatures E c hvalid
  have hsigs : (Context.load E c.Type_ (Serialized E c)).signatures_ = c.signatures_ := by
    simp only [Context.load, proto.Context.get_signature, (Serialized_fields E c).2.2.2.2.2.2.2,
      hsig, List.head?_cons, Option.getD_some]
  have hsv : SigVersion E (Context.load E c.Type_ (Serialized E c)) = SigVersion E c :=
    SigVersion_congr E c _ (Serialized_fields E c).1 rfl hnym hrnym hrt.2.2.2.2.1
      hrt.2.2.2.2.2 hrt.1 hrt.2.1 hrt.2.2.1 hrt.2.2.2.1
  refine ⟨hsv, hsigs, ⟨sig, hsig⟩, ?_⟩
  rw [validate_congr E c _ hsigs hnym hsv hbase]
  exact hvalid

/-- Witness of C12: the signed sample Context is valid, and so is its reload. -/
theorem validate_round_trip_witness :
    validate sample_collaborators sample_signed_context = some true ∧
    validate sample_collaborators
      (Context.load sample_collaborators sample_signed_context.Type_
        (Serialized sample_collaborators sample_signed_context)) = some true :=
  ⟨by decide,
   (validate_round_trip sample_collaborators sample_signed_context (by decide) (by decide)
     (by decide) (by decide) (by decide) (by decide) (by decide) (fun _ => rfl)
     (by decide)).2.2.2⟩

/-! ## The composite identifier -/

/-- C13: a server-type Context and a client-type Context that hold the same
relationship from the two sides (nyms and nymbox hashes trade places; version,
request number and the two transaction-number sets are equal) have the same
`IDVersion` projection, which exists, and hence the same `GetID`. -/
theorem IDVersion_client_server (E : Collaborators) (server client : Context)
    (hs : server.Type_ = ConsensusType.CONSENSUSTYPE_SERVER)
    (hc : client.Type_ = ConsensusType.CONSENSUSTYPE_CLIENT)
    (hn : client.nym_ = server.remote_nym_)
    (hrn : client.remote_nym_ = server.nym_)
    (hl : client.local_nymbox_hash_ = server.remote_nymbox_hash_)
    (hr : client.remote_nymbox_hash_ = server.local_nymbox_hash_)
    (hv : client.version_ = server.version_)
    (hq : client.request_number_ = server.request_number_)
    (hav : client.available_transaction_numbers_ = server.available_transaction_numbers_)
    (hi : client.issued_transaction_numbers_ = server.issued_transaction_numbers_) :
    IDVersion E server = IDVersion E client ∧
    (∃ p, IDVersion E server = some p) ∧
    GetID E server = GetID E client ∧
    (∃ i, GetID E server = some i) := by
  have hp : IDVersion E server = IDVersion E client := by
    simp only [Context.Type_] at hs hc
    simp only [IDVersion, Context.Type_, hs, hc, hn, hrn, hl, hr, hv, hq, hav, hi]
    cases server.nym_ <;> cases server.remote_nym_ <;> rfl
  obtain ⟨p, hsome⟩ := IDVersion_isSome E server (Or.inl hs)
  refine ⟨hp, ⟨p, hsome⟩, ?_, ⟨E.CalculateDigest p, ?_⟩⟩
  · simp only [GetID, hp]
  · simp only [GetID, hsome, Option.map_some']

/-- Witness of C13: the sample server Context and its client-side view. -/
theorem IDVersion_client_server_witness :
    sample_signed_context.Type_ = ConsensusType.CONSENSUSTYPE_SERVER ∧
    sample_client_context.Type_ = ConsensusType.CONSENSUSTYPE_CLIENT ∧
    GetID sample_collaborators sample_signed_context =
      GetID sample_collaborators sample_client_context :=
  ⟨rfl, rfl,
   (IDVersion_client_server sample_collaborators sample_signed_context sample_client_context
     rfl rfl rfl rfl rfl rfl rfl rfl rfl rfl).2.2.1⟩

theorem CalculateID_result (E : Collaborators) (c c1 : Context)
    (h : CalculateID E c = some c1) :
    (∃ i, c1 = { c with id_ := i }) ∧ GetID E c1 = some c1.id_ := by
  simp only [CalculateID, Option.map_eq_some'] at h
  obtain ⟨i, hi, rfl⟩ := h
  exact ⟨⟨i, rfl⟩, hi⟩

/-- C14: `SetLocalNymboxHash(h)` stores h as the local hash and then always calls
the identifier recomputation, so that whenever it returns the stored identifier is
`GetID` of the new state; `SetRemoteNymboxHash(h)` does the same for the remote
hash; both return for a Context of server or client type. -/
theorem setters_recompute_identifier (E : Collaborators) (c : Context) (h : Identifier) :
    SetLocalNymboxHash E h c = CalculateID E { c with local_nymbox_hash_ := h } ∧
    SetRemoteNymboxHash E h c = CalculateID E { c with remote_nymbox_hash_ := h } ∧
    (∀ c1, SetLocalNymboxHash E h c = some c1 →
      LocalNymboxHash c1 = h ∧ GetID E c1 = some c1.id_) ∧
    (∀ c1, SetRemoteNymboxHash E h c = some c1 →
      RemoteNymboxHash c1 = h ∧ GetID E c1 = some c1.id_) ∧
    (c.Type_ = ConsensusType.CONSENSUSTYPE_SERVER ∨
        c.Type_ = ConsensusType.CONSENSUSTYPE_CLIENT →
      (∃ c1, SetLocalNymboxHash E h c = some c1) ∧
      (∃ c1, SetRemoteNymboxHash E h c = some c1)) := by
  refine ⟨rfl, rfl, ?_, ?_, ?_⟩
  · intro c1 h1
    exact ⟨(SetLocalNymboxHash_fields E c c1 h h1).1, (CalculateID_result E _ c1 h1).2⟩
  · intro c1 h1
    exact ⟨(SetRemoteNymboxHash_fields E c c1 h h1).2, (CalculateID_result E _ c1 h1).2⟩
  · intro htype
    obtain ⟨c1, e1, _⟩ := SetLocalNymboxHash_some E c h htype
    obtain ⟨c2, e2, _⟩ := SetRemoteNymboxHash_some E c h htype
    exact ⟨⟨c1, e1⟩, ⟨c2, e2⟩⟩

/-- Witness of C14: both setters return on the sample server Context. -/
theorem setters_recompute_identifier_witness :
    sample_context.Type_ = ConsensusType.CONSENSUSTYPE_SERVER ∧
    (∃ c1, SetLocalNymboxHash sample_collaborators [7] sample_context = some c1) ∧
    (∃ c1, SetRemoteNymboxHash sample_collaborators [7] sample_context = some c1) :=
  ⟨rfl,
   (setters_recompute_identifier sample_collaborators sample_context [7]).2.2.2.2
     (Or.inl rfl)⟩

theorem apply_keeps_identifier (E : Collaborators) (op : Operation) (c c1 : Context)
    (hop : op.writes_request = false)
    (hc : GetID E c = some c.id_)
    (h : op.apply E c = some c1) :
    GetID E c1 = some c1.id_ := by
  cases op with
  | AddAcknowledgedNumber req =>
    simp only [Operation.apply, Option.some.injEq] at h
    subst h
    exact hc
  | RemoveAcknowledgedNumber req =>
    simp only [Operation.apply, Option.some.injEq] at h
    subst h
    exact hc
  | finish_acknowledgements req =>
    simp only [Operation.apply, Option.some.injEq] at h
    subst h
    exact hc
  | IncrementRequest => simp [Operation.writes_request] at hop
  | SetRequest req => simp [Operation.writes_request] at hop
  | SetLocalNymboxHash hash => exact (CalculateID_result E _ c1 h).2
  | SetRemoteNymboxHash hash => exact (CalculateID_result E _ c1 h).2
  | update_signature =>
    simp only [Operation.apply, Option.map_eq_some'] at h
    obtain ⟨⟨b, c2⟩, h2, rfl⟩ := h
    obtain ⟨sigs, rfl⟩ := update_signature_frame E c b c2 h2
    exact hc

theorem run_keeps_identifier (E : Collaborators) (ops : List Operation) (c c1 : Context)
    (hops : ∀ op ∈ ops, op.writes_request = false)
    (hc : GetID E c = some c.id_)
    (h : run_operations E ops c = some c1) :
    GetID E c1 = some c1.id_ := by
  induction ops generalizing c with
  | nil =>
    simp only [run_operations, Option.some.injEq] at h
    subst h
    exact hc
  | cons op ops ih =>
    unfold run_operations at h
    split at h
    · exact absurd h (by simp)
    · rename_i c2 h2
      exact ih c2 (fun o ho => hops o (List.mem_cons_of_mem op ho))
        (apply_keeps_identifier E op c c2 (hops op (List.mem_cons_self op ops)) hc h2) h

/-- C15, as stated, fails: after `SetLocalNymboxHash` the stored identifier is
`GetID` of the state, and after a following `IncrementRequest` it is not: the
request number is part of `IDVersion` and the stored identifier is not recomputed. -/
theorem stored_identifier_stale :
    identifier_current_after sample_collaborators
      [Operation.SetLocalNymboxHash [7]] sample_context = some true ∧
    identifier_current_after sample_collaborators
      [Operation.SetLocalNymboxHash [7], Operation.IncrementRequest] sample_context =
      some false ∧
    identifier_current_after sample_collaborators
      [Operation.SetLocalNymboxHash [7], Operation.SetRequest 5] sample_context =
      some false := by
  decide

/-- C15, amended: once either nymbox-hash setter has computed the identifier, the
stored identifier equals `GetID` of the current state after any further sequence of
operations that do not write the request counter (`AddAcknowledgedNumber`,
`RemoveAcknowledgedNumber`, `finish_acknowledgements`, the two setters,
`update_signature`); `IncrementRequest` and `SetRequest` leave the stored
identifier as it was. -/
theorem stored_identifier_invariant (E : Collaborators) (c0 c : Context)
    (ops : List Operation)
    (hinit : (∃ h before, SetLocalNymboxHash E h before = some c0) ∨
      (∃ h before, SetRemoteNymboxHash E h before = some c0))
    (hops : ∀ op ∈ ops, op.writes_request = false)
    (hrun : run_operations E ops c0 = some c) :
    GetID E c = some c.id_ ∧
    (IncrementRequest c).2.id_ = c.id_ ∧
    (∀ req, (SetRequest req c).id_ = c.id_) := by
  refine ⟨run_keeps_identifier E ops c0 c hops ?_ hrun, rfl, fun _ => rfl⟩
  rcases hinit with ⟨h, before, hset⟩ | ⟨h, before, hset⟩
  · exact (CalculateID_result E _ c0 hset).2
  · exact (CalculateID_result E _ c0 hset).2

/-- Witness of C15: a hash is set on the sample Context, then a number is
acknowledged. -/
theorem stored_identifier_invariant_witness :
    SetLocalNymboxHash sample_collaborators [7] sample_context =
      some { sample_context with local_nymbox_hash_ := [7], id_ := [0, 1] } ∧
    run_operations sample_collaborators [Operation.AddAcknowledgedNumber 5]
      { sample_context with local_nymbox_hash_ := [7], id_ := [0, 1] } =
      some (AddAcknowledgedNumber 5
        { sample_context with local_nymbox_hash_ := [7], id_ := [0, 1] }).2 ∧
    GetID sample_collaborators (AddAcknowledgedNumber 5
        { sample_context with local_nymbox_hash_ := [7], id_ := [0, 1] }).2 =
      some [0, 1] :=
  ⟨rfl, rfl,
   (stored_identifier_invariant sample_collaborators
     { sample_context with local_nymbox_hash_ := [7], id_ := [0, 1] }
     (AddAcknowledgedNumber 5
        { sample_context with local_nymbox_hash_ := [7], id_ := [0, 1] }).2
     [Operation.AddAcknowledgedNumber 5]
     (Or.inl ⟨[7], sample_context, rfl⟩) (by decide) rfl).1⟩

theorem same_nymbox_state_of_hashes (E : Collaborators) (c c2 : Context)
    (hl : c2.local_nymbox_hash_ = c.local_nymbox_hash_)
    (hr : c2.remote_nymbox_hash_ = c.remote_nymbox_hash_) :
    same_nymbox_state E c c2 := by
  refine ⟨hl, hr, ?_⟩
  simp only [NymboxHashMatch, HaveLocalNymboxHash, HaveRemoteNymboxHash, hl, hr]

/-- C16: `AddAcknowledgedNumber`, `RemoveAcknowledgedNumber`,
`finish_acknowledgements`, `IncrementRequest`, `SetRequest` and `update_signature`
each leave the local and the remote nymbox hash, and so the value of
`NymboxHashMatch`, unchanged. -/
theorem nymbox_hashes_frame (E : Collaborators) (c : Context) :
    (∀ req, same_nymbox_state E c (AddAcknowledgedNumber req c).2) ∧
    (∀ req, same_nymbox_state E c (RemoveAcknowledgedNumber req c).2) ∧
    (∀ req, same_nymbox_state E c (finish_acknowledgements req c)) ∧
    same_nymbox_state E c (IncrementRequest c).2 ∧
    (∀ req, same_nymbox_state E c (SetRequest req c)) ∧
    (∀ b c2, update_signature E c = some (b, c2) → same_nymbox_state E c c2) := by
  refine ⟨fun _ => same_nymbox_state_of_hashes E c _ rfl rfl,
    fun _ => same_nymbox_state_of_hashes E c _ rfl rfl,
    fun _ => same_nymbox_state_of_hashes E c _ rfl rfl,
    same_nymbox_state_of_hashes E c _ rfl rfl,
    fun _ => same_nymbox_state_of_hashes E c _ rfl rfl, ?_⟩
  intro b c2 h
  obtain ⟨sigs, rfl⟩ := update_signature_frame E c b c2 h
  exact same_nymbox_state_of_hashes E c _ rfl rfl

/-- Witness of C16: signing the sample Context anew leaves its hashes as they
were. -/
theorem nymbox_hashes_frame_witness :
    update_signature sample_collaborators sample_signed_context =
      some (true, { sample_signed_context with signatures_ :=
        [{ version := 2, role := SignatureRole.SIGROLE_CONTEXT, hashtype := 0,
           credentialid := "", signature := [4, 1] }] }) ∧
    same_nymbox_state sample_collaborators sample_signed_context
      { sample_signed_context with signatures_ :=
        [{ version := 2, role := SignatureRole.SIGROLE_CONTEXT, hashtype := 0,
           credentialid := "", signature := [4, 1] }] } :=
  ⟨rfl, (nymbox_hashes_frame sample_collaborators sample_signed_context).2.2.2.2.2 _ _ rfl⟩

/-- C17: with the lock held, `IDVersion`, and with it `GetID`, ends in the fatal
`OT_FAIL` exactly when the type of the Context is neither `CONSENSUSTYPE_SERVER`
nor `CONSENSUSTYPE_CLIENT`; for these two types it returns a projection. -/
theorem IDVersion_fatal_iff (E : Collaborators) (c : Context) :
    (IDVersion E c = none ↔
      c.Type_ ≠ ConsensusType.CONSENSUSTYPE_SERVER ∧
        c.Type_ ≠ ConsensusType.CONSENSUSTYPE_CLIENT) ∧
    (GetID E c = none ↔
      c.Type_ ≠ ConsensusType.CONSENSUSTYPE_SERVER ∧
        c.Type_ ≠ ConsensusType.CONSENSUSTYPE_CLIENT) ∧
    ((∃ p, IDVersion E c = some p) ↔
      c.Type_ = ConsensusType.CONSENSUSTYPE_SERVER ∨
        c.Type_ = ConsensusType.CONSENSUSTYPE_CLIENT) := by
  have key : IDVersion E c = none ↔
      c.Type_ ≠ ConsensusType.CONSENSUSTYPE_SERVER ∧
        c.Type_ ≠ ConsensusType.CONSENSUSTYPE_CLIENT := by
    constructor
    · intro h
      constructor
      · intro ht
        obtain ⟨p, hp⟩ := IDVersion_isSome E c (Or.inl ht)
        rw [hp] at h
        exact absurd h (by simp)
      · intro ht
        obtain ⟨p, hp⟩ := IDVersion_isSome E c (Or.inr ht)
        rw [hp] at h
        exact absurd h (by simp)
    · intro ⟨h1, h2⟩
      unfold IDVersion
      cases ht : c.Type_ with
      | CONSENSUSTYPE_SERVER => exact absurd ht h1
      | CONSENSUSTYPE_CLIENT => exact absurd ht h2
      | unlisted tag => rfl
  refine ⟨key, ?_, ?_⟩
  · rw [← key]
    simp only [GetID, Option.map_eq_none']
  · constructor
    · intro ⟨p, hp⟩
      by_contra hne
      have hnone := key.mpr ⟨fun e => hne (Or.inl e), fun e => hne (Or.inr e)⟩
      rw [hp] at hnone
      exact absurd hnone (by simp)
    · exact IDVersion_isSome E c

/-- Witness of C17: a Context whose type tag is 0 has no projection; the sample
server Context has one. -/
theorem IDVersion_fatal_iff_witness :
    IDVersion sample_collaborators
      { sample_context with consensus_type := ConsensusType.unlisted 0 } = none ∧
    ∃ p, IDVersion sample_collaborators sample_context = some p :=
  ⟨(IDVersion_fatal_iff sample_collaborators
      { sample_context with consensus_type := ConsensusType.unlisted 0 }).1.mpr
      ⟨by decide, by decide⟩,
   (IDVersion_fatal_iff sample_collaborators sample_context).2.2.mpr (Or.inl rfl)⟩

/-! ## Monotonicity of the request counter -/

/-- C18, as stated, fails: `SetRequest(0)` lowers a counter that stands at 4, and
`IncrementRequest` on a counter that stands at 2^64 - 1 returns 0. -/
theorem request_number_not_monotone :
    Request sample_signed_context = 4 ∧
    Request (SetRequest 0 sample_signed_context) = 0 ∧
    (IncrementRequest { sample_context with request_number_ := 2 ^ 64 - 1 }).1 = 0 ∧
    Request (IncrementRequest { sample_context with request_number_ := 2 ^ 64 - 1 }).2 = 0 := by
  decide

/-- C18, amended: while the counter is below 2^64 - 1, `IncrementRequest` returns
and stores a value strictly greater than the previous one; every operation other
than `IncrementRequest` and `SetRequest` leaves the counter unchanged; `SetRequest`
stores the value it is given, higher or lower. -/
theorem request_number_monotone (E : Collaborators) (c : Context) :
    (c.request_number_ + 1 < 2 ^ 64 →
      Request c < (IncrementRequest c).1 ∧ Request c < Request (IncrementRequest c).2) ∧
    (∀ (op : Operation) (c1 : Context), op.writes_request = false →
      op.apply E c = some c1 → Request c1 = Request c) ∧
    (∀ req, Request (SetRequest req c) = req) := by
  refine ⟨?_, ?_, fun _ => rfl⟩
  · intro h
    have hmod : (c.request_number_ + 1) % UINT64_RANGE = c.request_number_ + 1 :=
      Nat.mod_eq_of_lt h
    have hret : (IncrementRequest c).1 = c.request_number_ + 1 := by
      simp only [IncrementRequest, hmod]
    have hst : (IncrementRequest c).2.request_number_ = c.request_number_ + 1 := by
      simp only [IncrementRequest, hmod]
    constructor
    · rw [hret]
      exact Nat.lt_succ_self _
    · show c.request_number_ < (IncrementRequest c).2.request_number_
      rw [hst]
      exact Nat.lt_succ_self _
  · intro op c1 hop h
    cases op with
    | AddAcknowledgedNumber req =>
      simp only [Operation.apply, Option.some.injEq] at h
      subst h
      rfl
    | RemoveAcknowledgedNumber req =>
      simp only [Operation.apply, Option.some.injEq] at h
      subst h
      rfl
    | finish_acknowledgements req =>
      simp only [Operation.apply, Option.some.injEq] at h
      subst h
      rfl
    | IncrementRequest => simp [Operation.writes_request] at hop
    | SetRequest req => simp [Operation.writes_request] at hop
    | SetLocalNymboxHash hash =>
      obtain ⟨⟨i, rfl⟩, _⟩ := CalculateID_result E _ c1 h
      rfl
    | SetRemoteNymboxHash hash =>
      obtain ⟨⟨i, rfl⟩, _⟩ := CalculateID_result E _ c1 h
      rfl
    | update_signature =>
      simp only [Operation.apply, Option.map_eq_some'] at h
      obtain ⟨⟨b, c2⟩, h2, rfl⟩ := h
      obtain ⟨sigs, rfl⟩ := update_signature_frame E c b c2 h2
      rfl

/-- Witness of C18: the counter of the sample Context goes from 4 to 5. -/
theorem request_number_monotone_witness :
    sample_signed_context.request_number_ + 1 < 2 ^ 64 ∧
    Request sample_signed_context < (IncrementRequest sample_signed_context).1 ∧
    Operation.apply sample_collaborators (Operation.AddAcknowledgedNumber 9)
      sample_signed_context = some (AddAcknowledgedNumber 9 sample_signed_context).2 ∧
    Request (AddAcknowledgedNumber 9 sample_signed_context).2 =
      Request sample_signed_context :=
  ⟨by decide,
   ((request_number_monotone sample_collaborators sample_signed_context).1 (by decide)).1,
   rfl,
   (request_number_monotone sample_collaborators sample_signed_context).2.1
     (Operation.AddAcknowledgedNumber 9) _ rfl rfl⟩

/-! ## Contract verification -/

/-- C20: `VerifyContract` is true exactly when `VerifyContractID` passes (the hash
of the raw file is the stored identifier) and the signature verifies against the
nym that `GetContractPublicNym` returns; when the hash phase fails the result is
false whatever the signature phase would say. -/
theorem VerifyContract_iff (K : ContractCollaborators) (d : Contract) :
    (VerifyContract K d = true ↔
      VerifyContractID K d = true ∧
        ∃ nym, K.GetContractPublicNym d = some nym ∧ K.VerifySignature d nym = true) ∧
    (VerifyContractID K d = true ↔ K.CalculateDigest d.m_strRawFile = d.m_ID) ∧
    (VerifyContractID K d = false → VerifyContract K d = false) := by
  refine ⟨?_, ?_, ?_⟩
  · unfold VerifyContract
    cases hid : VerifyContractID K d with
    | false => simp
    | true =>
      cases hn : K.GetContractPublicNym d with
      | none => simp
      | some nym => simp
  · simp only [VerifyContractID, CalculateContractID, decide_eq_true_eq]
    exact eq_comm
  · intro h
    simp [VerifyContract, h]

/-- Witness of C20: the sample contract verifies; with another stored identifier
it does not. -/
theorem VerifyContract_iff_witness :
    VerifyContract sample_contract_collaborators sample_contract = true ∧
    VerifyContractID sample_contract_collaborators { sample_contract with m_ID := [1] } =
      false ∧
    VerifyContract sample_contract_collaborators { sample_contract with m_ID := [1] } =
      false :=
  ⟨(VerifyContract_iff sample_contract_collaborators sample_contract).1.mpr
     ⟨by decide, { ID := [97] }, by decide, by decide⟩,
   by decide,
   (VerifyContract_iff sample_contract_collaborators
     { sample_contract with m_ID := [1] }).2.2 (by decide)⟩

/-! ## What an acknowledgement records -/

theorem set_insert_flag_of_lt_all (x : Nat) (s : List Nat) (h : ∀ y ∈ s, x < y) :
    (set_insert x s).2 = true := by
  cases s with
  | nil => rfl
  | cons a t =>
    have ha : x < a := h a (List.mem_cons_self a t)
    simp [set_insert, ha]

theorem verify_acknowledged_iff (req : RequestNumber) (c : Context) :
    VerifyAcknowledgedNumber req c = true ↔ req ∈ c.acknowledged_request_numbers_ := by
  unfold VerifyAcknowledgedNumber set_count
  by_cases h : req ∈ c.acknowledged_request_numbers_ <;> simp [h]

theorem add_acknowledged_acks (req : RequestNumber) (c : Context) :
    (AddAcknowledgedNumber req c).2.acknowledged_request_numbers_ =
      keep_last 100 (set_insert req c.acknowledged_request_numbers_).1 := by
  simp only [AddAcknowledgedNumber, evict_loop_eq_keep_last]
  rfl

set_option maxRecDepth 100000 in
/-- C22, as stated, fails: on the full set 2..101 the call for 1 returns true, and
1 is not recorded after it. -/
theorem add_acknowledged_not_recorded :
    (AddAcknowledgedNumber 1 sample_full_context).1 = true ∧
    VerifyAcknowledgedNumber 1 (AddAcknowledgedNumber 1 sample_full_context).2 = false := by
  decide

/-- C22, amended: on a state within the cap, if `AddAcknowledgedNumber(r)` returns
true and fewer than 100 numbers were stored or some stored number is below r, then
`VerifyAcknowledgedNumber(r)` is true after the call; when r is below all of 100
stored numbers the call returns true and r is not recorded. -/
theorem add_acknowledged_recorded (c : Context) (req : RequestNumber)
    (hset : IsStdSet c.acknowledged_request_numbers_)
    (hlen : c.acknowledged_request_numbers_.length ≤ 100) :
    ((AddAcknowledgedNumber req c).1 = true →
      (c.acknowledged_request_numbers_.length < 100 ∨
        ∃ y ∈ c.acknowledged_request_numbers_, y < req) →
      VerifyAcknowledgedNumber req (AddAcknowledgedNumber req c).2 = true) ∧
    (c.acknowledged_request_numbers_.length = 100 →
      (∀ y ∈ c.acknowledged_request_numbers_, req < y) →
      (AddAcknowledgedNumber req c).1 = true ∧
      VerifyAcknowledgedNumber req (AddAcknowledgedNumber req c).2 = false) := by
  have hmem : req ∈ (set_insert req c.acknowledged_request_numbers_).1 :=
    (mem_set_insert req req _).mpr (Or.inl rfl)
  have hup := set_insert_length_le req c.acknowledged_request_numbers_
  constructor
  · intro _ hcond
    rw [verify_acknowledged_iff, add_acknowledged_acks]
    by_cases hsmall : (set_insert req c.acknowledged_request_numbers_).1.length ≤ 100
    · rw [keep_last_of_length_le hsmall]
      exact hmem
    · rcases hcond with hlt | ⟨y, hy, hyr⟩
      · omega
      · have hsorted := set_insert_sorted req _ hset
        have hyins : y ∈ (set_insert req c.acknowledged_request_numbers_).1 :=
          (mem_set_insert req y _).mpr (Or.inr hy)
        cases hins : (set_insert req c.acknowledged_request_numbers_).1 with
        | nil => rw [hins] at hmem; simp at hmem
        | cons m t =>
          rw [hins] at hmem hyins hsorted hsmall hup
          have hp := List.sorted_cons.mp hsorted
          simp only [List.length_cons] at hsmall hup
          rw [keep_last_cons m (by omega), keep_last_of_length_le (by omega)]
          rcases List.mem_cons.mp hmem with hrm | hrt
          · rcases List.mem_cons.mp hyins with hym | hyt
            · rw [hym, ← hrm] at hyr
              exact absurd hyr (lt_irrefl _)
            · have hmy := hp.1 y hyt
              rw [hrm] at hyr
              exact absurd (lt_trans hmy hyr) (lt_irrefl _)
          · exact hrt
  · intro hfull hall
    refine ⟨set_insert_flag_of_lt_all req _ hall, ?_⟩
    have hnot : ¬ req ∈ c.acknowledged_request_numbers_ :=
      fun hin => absurd (hall req hin) (lt_irrefl req)
    cases hv : VerifyAcknowledgedNumber req (AddAcknowledgedNumber req c).2 with
    | false => rfl
    | true =>
      rw [verify_acknowledged_iff, add_acknowledged_acks,
        set_insert_of_lt_all req _ hall, keep_last_cons req (by omega),
        keep_last_of_length_le (by omega)] at hv
      exact absurd hv hnot

/-- Witness of C22: 7 is added to a set that holds 3 and 5, and is recorded; 1 is
added to the full set 2..101, and is not. -/
theorem add_acknowledged_recorded_witness :
    IsStdSet sample_signed_context.acknowledged_request_numbers_ ∧
    sample_signed_context.acknowledged_request_numbers_.length ≤ 100 ∧
    (AddAcknowledgedNumber 7 sample_signed_context).1 = true ∧
    VerifyAcknowledgedNumber 7 (AddAcknowledgedNumber 7 sample_signed_context).2 = true :=
  ⟨by decide, by decide, by decide,
   (add_acknowledged_recorded sample_signed_context 7 (by decide) (by decide)).1
     (by decide) (Or.inl (by decide))⟩

/-! ## Signatures on failure and after construction -/

theorem validate_no_signature (E : Collaborators) (c : Context)
    (h : c.signatures_ = []) : validate E c = some false := by
  simp [validate, h]

/-- C23: when the base update step fails, `update_signature` returns false and the
state, with its stored signatures, is unchanged; when the base step succeeds and
the signing of the local nym fails, it returns false and leaves no stored
signature, so that `validate` is false afterwards. -/
theorem update_signature_failure (E : Collaborators) (c : Context) :
    (E.super_update_signature c = false → update_signature E c = some (false, c)) ∧
    (∀ nym, E.super_update_signature c = true → c.nym_ = some nym →
      (E.SignProto nym (signing_input E c).1 (signing_input E c).2).1 = false →
      update_signature E c = some (false, { c with signatures_ := [] }) ∧
      ({ c with signatures_ := [] } : Context).signatures_.length = 0 ∧
      validate E { c with signatures_ := [] } = some false) := by
  constructor
  · intro hbase
    simp [update_signature, hbase]
  · intro nym hbase hnym hsign
    refine ⟨?_, rfl, validate_no_signature E _ rfl⟩
    obtain ⟨v, t, n, rn, i, sg, l, r, rq, a, av, iss⟩ := c
    simp only at hnym
    subst hnym
    have hin : signing_input E ⟨v, t, some nym, rn, i, [], l, r, rq, a, av, iss⟩ =
        signing_input E ⟨v, t, some nym, rn, i, sg, l, r, rq, a, av, iss⟩ := rfl
    simp only [update_signature, hbase, hin, hsign, Bool.not_true, Bool.false_eq_true,
      if_false]

/-- Witness of C23: signing fails on the signed sample Context, whose signature is
discarded; the base step fails on a Context without a local nym. -/
theorem update_signature_failure_witness :
    sample_failing_collaborators.super_update_signature sample_signed_context = true ∧
    update_signature sample_failing_collaborators sample_signed_context =
      some (false, { sample_signed_context with signatures_ := [] }) ∧
    sample_collaborators.super_update_signature
      { sample_signed_context with nym_ := none } = false ∧
    update_signature sample_collaborators { sample_signed_context with nym_ := none } =
      some (false, { sample_signed_context with nym_ := none }) :=
  ⟨rfl,
   ((update_signature_failure sample_failing_collaborators sample_signed_context).2
     { ID := [1] } rfl rfl rfl).1,
   rfl,
   (update_signature_failure sample_collaborators
     { sample_signed_context with nym_ := none }).1 rfl⟩

/-- C24: a Context reconstructed from a snapshot holds exactly one signature, the
signature field of the snapshot, which is the default empty signature when the
snapshot carries none; a freshly constructed Context holds no signature and
`validate` is false on it. -/
theorem load_single_signature (E : Collaborators) (type : ConsensusType)
    (serialized : proto.Context) (localId remoteId : Identifier) :
    (Context.load E type serialized).signatures_ = [serialized.get_signature] ∧
    (Context.load E type serialized).signatures_.length = 1 ∧
    (∀ sig, serialized.signature = some sig →
      (Context.load E type serialized).signatures_ = [sig]) ∧
    (serialized.signature = none →
      (Context.load E type serialized).signatures_ = [proto.Signature.empty]) ∧
    (Context.create E type localId remoteId).signatures_ = [] ∧
    validate E (Context.create E type localId remoteId) = some false := by
  refine ⟨rfl, rfl, ?_, ?_, rfl, validate_no_signature E _ rfl⟩
  · intro sig h
    simp [Context.load, proto.Context.get_signature, h]
  · intro h
    simp [Context.load, proto.Context.get_signature, h]

/-- Witness of C24: the sample snapshot carries no signature, and its Context
holds the default one. -/
theorem load_single_signature_witness :
    sample_snapshot.signature = none ∧
    (Context.load sample_collaborators ConsensusType.CONSENSUSTYPE_SERVER
      sample_snapshot).signatures_ = [proto.Signature.empty] ∧
    validate sample_collaborators sample_context = some false :=
  ⟨rfl,
   (load_single_signature sample_collaborators ConsensusType.CONSENSUSTYPE_SERVER
     sample_snapshot [1] [2]).2.2.2.1 rfl,
   (load_single_signature sample_collaborators ConsensusType.CONSENSUSTYPE_SERVER
     sample_snapshot [1] [2]).2.2.2.2.2⟩

/-! ## What the identifier depends on -/

theorem IDVersion_congr (E : Collaborators) (c c2 : Context)
    (ht : c2.consensus_type = c.consensus_type) (hv : c2.version_ = c.version_)
    (hn : c2.nym_ = c.nym_) (hrn : c2.remote_nym_ = c.remote_nym_)
    (hl : c2.local_nymbox_hash_ = c.local_nymbox_hash_)
    (hr : c2.remote_nymbox_hash_ = c.remote_nymbox_hash_)
    (hq : c2.request_number_ = c.request_number_)
    (hav : c2.available_transaction_numbers_ = c.available_transaction_numbers_)
    (hi : c2.issued_transaction_numbers_ = c.issued_transaction_numbers_) :
    IDVersion E c2 = IDVersion E c := by
  simp only [IDVersion, Context.Type_, ht, hv, hn, hrn, hl, hr, hq, hav, hi]

theorem IDVersion_unset_fields (E : Collaborators) (c : Context) (p : proto.Context)
    (hp : IDVersion E c = some p) :
    p.type = proto.Context.empty.type ∧ p.acknowledgedrequestnumber = [] ∧
      p.signature = none := by
  unfold IDVersion Context.Type_ at hp
  cases ht : c.consensus_type <;> cases hn : c.nym_ <;> cases hr : c.remote_nym_ <;>
    simp only [ht, hn, hr, Option.map_some', Option.map_none', Option.some.injEq,
      reduceCtorEq] at hp <;>
    (subst hp; exact ⟨rfl, rfl, rfl⟩)

/-- C25: two Contexts of the same type that agree on version, nyms, nymbox hashes,
request number and the available and issued transaction-number sets have the same
`IDVersion` and `GetID`, whatever their acknowledged numbers and signatures; the
projection carries no type tag, acknowledged number or signature; so
`AddAcknowledgedNumber`, `RemoveAcknowledgedNumber`, `finish_acknowledgements` and
`update_signature` leave `GetID` unchanged. -/
theorem identifier_ignores_acknowledgements (E : Collaborators) (c c2 : Context) :
    (c2.Type_ = c.Type_ → c2.version_ = c.version_ → c2.nym_ = c.nym_ →
      c2.remote_nym_ = c.remote_nym_ →
      LocalNymboxHash c2 = LocalNymboxHash c → RemoteNymboxHash c2 = RemoteNymboxHash c →
      Request c2 = Request c →
      c2.available_transaction_numbers_ = c.available_transaction_numbers_ →
      c2.issued_transaction_numbers_ = c.issued_transaction_numbers_ →
      IDVersion E c2 = IDVersion E c ∧ GetID E c2 = GetID E c) ∧
    (∀ p, IDVersion E c = some p →
      p.type = proto.Context.empty.type ∧ p.acknowledgedrequestnumber = [] ∧
        p.signature = none) ∧
    (∀ req, GetID E (AddAcknowledgedNumber req c).2 = GetID E c) ∧
    (∀ req, GetID E (RemoveAcknowledgedNumber req c).2 = GetID E c) ∧
    (∀ req, GetID E (finish_acknowledgements req c) = GetID E c) ∧
    (∀ b c3, update_signature E c = some (b, c3) → GetID E c3 = GetID E c) := by
  refine ⟨?_, IDVersion_unset_fields E c, fun _ => rfl, fun _ => rfl, fun _ => rfl, ?_⟩
  · intro ht hv hn hrn hl hr hq hav hi
    have h := IDVersion_congr E c c2 ht hv hn hrn hl hr hq hav hi
    exact ⟨h, by simp only [GetID, h]⟩
  · intro b c3 h
    obtain ⟨sigs, rfl⟩ := update_signature_frame E c b c3 h
    rfl

/-- Witness of C25: the sample Context with other acknowledged numbers and no
signature has the identifier of the sample Context. -/
theorem identifier_ignores_acknowledgements_witness :
    GetID sample_collaborators
      { sample_signed_context with acknowledged_request_numbers_ := [1, 2], signatures_ := [] }
      = GetID sample_collaborators sample_signed_context :=
  ((identifier_ignores_acknowledgements sample_collaborators sample_signed_context
    { sample_signed_context with acknowledged_request_numbers_ := [1, 2], signatures_ := [] }).1
    rfl rfl rfl rfl rfl rfl rfl rfl rfl).2

/-! ## The identifier of a signed contract -/

/-- C21: a contract document that has been signed, its raw form rebuilt and its
identifier recomputed has as identifier the hash of its complete raw signed form
(unsigned content and signatures): `CalculateContractID` yields `m_ID` and
`VerifyContractID` is true, after `Sign` and after a successful `CreateContract`;
signing returns a document whenever the signer produces a signature. -/
theorem signed_contract_identifier (K : ContractCollaborators) (S : ContractSigning)
    (theSigner : Nym) (d : Contract) (strContract : String) :
    (∀ signed, Sign K S theSigner d = some signed →
      CalculateContractID K signed = signed.m_ID ∧ VerifyContractID K signed = true ∧
      signed.m_strRawFile =
        S.AddBookendsAroundContent signed.m_xmlUnsigned signed.m_listSignatures) ∧
    (∀ signed, CreateContract K S strContract theSigner d = (true, signed) →
      CalculateContractID K signed = signed.m_ID ∧ VerifyContractID K signed = true ∧
      signed.m_xmlUnsigned = strContract) ∧
    (∀ sig, S.SignContract theSigner d.m_xmlUnsigned = some sig →
      ∃ signed, Sign K S theSigner d = some signed) := by
  have key : ∀ (d0 signed : Contract), Sign K S theSigner d0 = some signed →
      CalculateContractID K signed = signed.m_ID ∧ VerifyContractID K signed = true ∧
      signed.m_strRawFile =
        S.AddBookendsAroundContent signed.m_xmlUnsigned signed.m_listSignatures ∧
      signed.m_xmlUnsigned = d0.m_xmlUnsigned := by
    intro d0 signed h
    unfold Sign at h
    cases hs : S.SignContract theSigner d0.m_xmlUnsigned with
    | none => simp [hs] at h
    | some sig =>
      simp only [hs, Option.some.injEq] at h
      subst h
      exact ⟨rfl, by simp [VerifyContractID, CalculateContractID], rfl, rfl⟩
  refine ⟨fun signed h => ⟨(key d signed h).1, (key d signed h).2.1, (key d signed h).2.2.1⟩,
    ?_, ?_⟩
  · intro signed h
    unfold CreateContract at h
    cases hs : Sign K S theSigner { d with m_xmlUnsigned := strContract } with
    | none => simp [hs] at h
    | some d1 =>
      simp only [hs, Prod.mk.injEq, true_and] at h
      subst h
      have k := key _ d1 hs
      exact ⟨k.1, k.2.1, k.2.2.2⟩
  · intro sig hs
    refine ⟨{ d with m_listSignatures := sig :: d.m_listSignatures,
                     m_strRawFile :=
                       S.AddBookendsAroundContent d.m_xmlUnsigned (sig :: d.m_listSignatures),
                     m_ID := K.CalculateDigest
                       (S.AddBookendsAroundContent d.m_xmlUnsigned
                         (sig :: d.m_listSignatures)) }, ?_⟩
    simp only [Sign, hs]

/-- Witness of C21: the sample contract text is signed by the nym 97. -/
theorem signed_contract_identifier_witness :
    CreateContract sample_contract_collaborators sample_contract_signing "a"
      { ID := [97] } sample_contract =
      (true, { m_ID := [97, 98, 98], m_xmlUnsigned := "a", m_strRawFile := "abb",
               m_listSignatures := [[97], [97]] }) ∧
    VerifyContractID sample_contract_collaborators
      { m_ID := [97, 98, 98], m_xmlUnsigned := "a", m_strRawFile := "abb",
        m_listSignatures := [[97], [97]] } = true :=
  ⟨by decide,
   ((signed_contract_identifier sample_contract_collaborators sample_contract_signing
     { ID := [97] } sample_contract "a").2.1 _ (by decide)).2.1⟩

/-! ## Settings: check, then set the default -/

theorem String_Exists_iff (s : String) : String_Exists s = true ↔ s ≠ "" := by
  unfold String_Exists
  rw [decide_eq_true_eq]
  constructor
  · intro h e
    rw [e] at h
    exact absurd h (by decide)
  · intro h
    rcases Nat.eq_zero_or_pos s.length with h0 | hpos
    · exact absurd (String.ext (List.length_eq_zero.mp h0)) h
    · exact hpos

theorem String_Exists_of_ne {s : String} (h : s ≠ "") : String_Exists s = true :=
  (String_Exists_iff s).mpr h

theorem String_Compare_empty_of_ne {s : String} (h : s ≠ "") :
    String_Compare s "" = false := by
  simp [String_Compare, h]

theorem c_str_or_null_of_ne {s : String} (h : s ≠ "") : c_str_or_null s = some s := by
  simp [c_str_or_null, String_Exists_of_ne h, String_Compare_empty_of_ne h]

theorem c_str_or_null_empty : c_str_or_null "" = none := by
  decide

theorem Check_str_present {σ : Type} (A : SettingsCollaborators σ) (ini : σ)
    (strSection strKey v : String) (hs : strSection ≠ "") (hk : strKey ≠ "")
    (hget : A.GetValue ini strSection strKey = some v) (hv : v ≠ "") :
    Check_str A ini strSection strKey = Except.ok (true, v, true) := by
  simp [Check_str, String_Exists_of_ne hs, String_Exists_of_ne hk,
    String_Compare_empty_of_ne hs, String_Compare_empty_of_ne hk, hget,
    String_Exists_of_ne hv, String_Compare_empty_of_ne hv]

theorem Check_str_absent {σ : Type} (A : SettingsCollaborators σ) (ini : σ)
    (strSection strKey : String) (hs : strSection ≠ "") (hk : strKey ≠ "")
    (hget : (A.GetValue ini strSection strKey).getD "" = "") :
    Check_str A ini strSection strKey = Except.ok (true, "", false) := by
  have he : String_Exists "" = false := by decide
  simp [Check_str, String_Exists_of_ne hs, String_Exists_of_ne hk,
    String_Compare_empty_of_ne hs, String_Compare_empty_of_ne hk, hget, he]

theorem Check_str_cases {σ : Type} (A : SettingsCollaborators σ) (ini : σ)
    (strSection strKey : String) (hs : strSection ≠ "") (hk : strKey ≠ "") :
    (∃ v, v ≠ "" ∧ A.GetValue ini strSection strKey = some v ∧
        Check_str A ini strSection strKey = Except.ok (true, v, true)) ∨
      ((A.GetValue ini strSection strKey).getD "" = "" ∧
        Check_str A ini strSection strKey = Except.ok (true, "", false)) := by
  cases hget : A.GetValue ini strSection strKey with
  | none =>
    exact Or.inr ⟨rfl, Check_str_absent A ini strSection strKey hs hk (by rw [hget]; rfl)⟩
  | some v =>
    by_cases hv : v = ""
    · exact Or.inr ⟨hv, Check_str_absent A ini strSection strKey hs hk (by rw [hget]; exact hv)⟩
    · exact Or.inl ⟨v, hv, rfl, Check_str_present A ini strSection strKey v hs hk hget hv⟩

theorem LogChange_str_eq {σ : Type} (A : SettingsCollaborators σ)
    (strSection strKey : String) (hs : strSection ≠ "") (hk : strKey ≠ "") :
    LogChange_str A strSection strKey =
      Except.ok (A.StringFill strSection 12 none && A.StringFill strKey 30 (some " to:")) := by
  unfold LogChange_str
  cases A.StringFill strSection 12 none <;> cases A.StringFill strKey 30 (some " to:") <;>
    simp [String_Exists_of_ne hs, String_Exists_of_ne hk]

theorem Set_str_absent {σ : Type} (A : SettingsCollaborators σ) (ini : σ)
    (strSection strKey strValue : String) (b0 : Bool) (strComment : String)
    (hs : strSection ≠ "") (hk : strKey ≠ "")
    (hcheck : Check_str A ini strSection strKey = Except.ok (true, "", false)) :
    Set_str A ini strSection strKey strValue b0 strComment =
      if (A.StringFill strSection 12 none && A.StringFill strKey 30 (some " to:")) = false then
        Except.ok (false, b0, ini)
      else if 0 > (A.SetValue ini strSection strKey (c_str_or_null strValue)
          (c_str_or_null strComment)).1 then
        Except.ok (false, b0, (A.SetValue ini strSection strKey (c_str_or_null strValue)
          (c_str_or_null strComment)).2)
      else if c_str_or_null strValue = none then
        Except.ok (true, false, (A.SetValue ini strSection strKey (c_str_or_null strValue)
          (c_str_or_null strComment)).2)
      else
        match Check_str A (A.SetValue ini strSection strKey (c_str_or_null strValue)
          (c_str_or_null strComment)).2 strSection strKey with
        | Except.error e => Except.error e
        | Except.ok (_, strNewValue, bNewKeyExist) =>
          if bNewKeyExist && String_Compare strValue strNewValue then
            Except.ok (true, true, (A.SetValue ini strSection strKey (c_str_or_null strValue)
              (c_str_or_null strComment)).2)
          else Except.error SettingsFatal.Set_str_trailing := by
  unfold Set_str
  simp only [String_Exists_of_ne hs, String_Exists_of_ne hk, String_Compare_empty_of_ne hs,
    String_Compare_empty_of_ne hk, hcheck, LogChange_str_eq A strSection strKey hs hk,
    Bool.not_true, Bool.false_eq_true, if_false, Bool.false_and]
  cases (A.StringFill strSection 12 none && A.StringFill strKey 30 (some " to:"))
  · simp
  · simp only [Bool.not_true, Bool.false_eq_true, if_false, Bool.true_eq_false]
    split_ifs with h1 h2
    · rfl
    · rfl
    · rcases Check_str_cases A (A.SetValue ini strSection strKey (c_str_or_null strValue)
        (c_str_or_null strComment)).2 strSection strKey hs hk with ⟨v, _, _, hc⟩ | ⟨_, hc⟩
      · simp [hc]
      · simp [hc]

theorem CheckSet_str_present {σ : Type} (A : SettingsCollaborators σ) (ini : σ)
    (strSection strKey strDefault out0 : String) (new0 : Bool) (strComment : String)
    (b0 : Bool) (v : String) (hs : strSection ≠ "") (hk : strKey ≠ "")
    (hcheck : Check_str A ini strSection strKey = Except.ok (true, v, true)) :
    CheckSet_str A ini strSection strKey strDefault out0 new0 strComment b0 =
      Except.ok (true, v, false, ini) := by
  unfold CheckSet_str
  simp [String_Exists_of_ne hs, String_Exists_of_ne hk, hcheck]

theorem CheckSet_str_absent {σ : Type} (A : SettingsCollaborators σ) (ini : σ)
    (strSection strKey strDefault out0 : String) (new0 : Bool) (strComment : String)
    (b0 : Bool) (hs : strSection ≠ "") (hk : strKey ≠ "")
    (hcheck : Check_str A ini strSection strKey = Except.ok (true, "", false)) :
    CheckSet_str A ini strSection strKey strDefault out0 new0 strComment b0 =
      match Set_str A ini strSection strKey strDefault b0 strComment with
      | Except.error e => Except.error e
      | Except.ok (done, bNewKeyCheck1, ini1) =>
        if !done then Except.ok (false, out0, new0, ini1)
        else if c_str_or_null strDefault = none then Except.ok (true, "", false, ini1)
        else if bNewKeyCheck1 then Except.ok (true, strDefault, true, ini1)
        else Except.error SettingsFatal.CheckSet_str_trailing := by
  unfold CheckSet_str
  simp [String_Exists_of_ne hs, String_Exists_of_ne hk, hcheck]

theorem Set_str_result {σ : Type} (A : SettingsCollaborators σ) (ini : σ)
    (strSection strKey strValue : String) (b0 : Bool) (strComment : String)
    (hs : strSection ≠ "") (hk : strKey ≠ "")
    (hcheck : Check_str A ini strSection strKey = Except.ok (true, "", false)) :
    (∃ ini1, Set_str A ini strSection strKey strValue b0 strComment =
        Except.ok (false, b0, ini1)) ∨
      (c_str_or_null strValue = none ∧
        ∃ ini1, Set_str A ini strSection strKey strValue b0 strComment =
          Except.ok (true, false, ini1)) ∨
      (∃ ini1, Set_str A ini strSection strKey strValue b0 strComment =
        Except.ok (true, true, ini1)) ∨
      Set_str A ini strSection strKey strValue b0 strComment =
        Except.error SettingsFatal.Set_str_trailing := by
  rw [Set_str_absent A ini strSection strKey strValue b0 strComment hs hk hcheck]
  by_cases h1 : (A.StringFill strSection 12 none &&
      A.StringFill strKey 30 (some " to:")) = false
  · rw [if_pos h1]
    exact Or.inl ⟨_, rfl⟩
  · rw [if_neg h1]
    by_cases h2 : 0 > (A.SetValue ini strSection strKey (c_str_or_null strValue)
        (c_str_or_null strComment)).1
    · rw [if_pos h2]
      exact Or.inl ⟨_, rfl⟩
    · rw [if_neg h2]
      by_cases h3 : c_str_or_null strValue = none
      · rw [if_pos h3]
        exact Or.inr (Or.inl ⟨h3, _, rfl⟩)
      · rw [if_neg h3]
        rcases Check_str_cases A (A.SetValue ini strSection strKey (c_str_or_null strValue)
          (c_str_or_null strComment)).2 strSection strKey hs hk with ⟨v, _, _, hc⟩ | ⟨_, hc⟩
        · rw [hc]
          by_cases h4 : (true && String_Compare strValue v) = true
          · refine Or.inr (Or.inr (Or.inl ⟨(A.SetValue ini strSection strKey
              (c_str_or_null strValue) (c_str_or_null strComment)).2, ?_⟩))
            simp only [h4, if_true]
          · refine Or.inr (Or.inr (Or.inr ?_))
            simp [h4]
        · rw [hc]
          exact Or.inr (Or.inr (Or.inr (by simp)))

theorem CheckSet_str_not_trailing {σ : Type} (A : SettingsCollaborators σ) (ini : σ)
    (strSection strKey strDefault out0 : String) (new0 : Bool) (strComment : String)
    (b0 : Bool) (hs : strSection ≠ "") (hk : strKey ≠ "") :
    CheckSet_str A ini strSection strKey strDefault out0 new0 strComment b0 ≠
      Except.error SettingsFatal.CheckSet_str_trailing := by
  rcases Check_str_cases A ini strSection strKey hs hk with ⟨v, _, _, hc⟩ | ⟨_, hc⟩
  · rw [CheckSet_str_present A ini strSection strKey strDefault out0 new0 strComment b0 v
      hs hk hc]
    simp
  · rw [CheckSet_str_absent A ini strSection strKey strDefault out0 new0 strComment b0
      hs hk hc]
    rcases Set_str_result A ini strSection strKey strDefault b0 strComment hs hk hc with
      ⟨ini1, h⟩ | ⟨hnull, ini1, h⟩ | ⟨ini1, h⟩ | h
    · rw [h]
      simp
    · rw [h]
      simp [hnull]
    · rw [h]
      by_cases h3 : c_str_or_null strDefault = none <;> simp [h3]
    · rw [h]
      simp

/-- C26: `CheckSet_str` for a non-empty section and key. A key that holds a
non-empty value: true, that value, `out_bIsNew = false`, store unchanged. Otherwise,
with a non-empty default, when logging and the store's set succeed and the set
value is read back: the default is stored, true, the default, `out_bIsNew = true`;
with an empty default, when logging and the set succeed: true, the empty result,
`out_bIsNew = false`. The trailing fatal branch of `CheckSet_str` is never
reached. -/
theorem CheckSet_str_behaviour {σ : Type} (A : SettingsCollaborators σ) (ini : σ)
    (strSection strKey strDefault out0 : String) (new0 : Bool) (strComment : String)
    (b0 : Bool) (hs : strSection ≠ "") (hk : strKey ≠ "") :
    (∀ v, A.GetValue ini strSection strKey = some v → v ≠ "" →
      CheckSet_str A ini strSection strKey strDefault out0 new0 strComment b0 =
        Except.ok (true, v, false, ini)) ∧
    ((A.GetValue ini strSection strKey).getD "" = "" → strDefault ≠ "" →
      A.StringFill strSection 12 none = true →
      A.StringFill strKey 30 (some " to:") = true →
      0 ≤ (A.SetValue ini strSection strKey (some strDefault) (c_str_or_null strComment)).1 →
      A.GetValue (A.SetValue ini strSection strKey (some strDefault)
        (c_str_or_null strComment)).2 strSection strKey = some strDefault →
      CheckSet_str A ini strSection strKey strDefault out0 new0 strComment b0 =
        Except.ok (true, strDefault, true,
          (A.SetValue ini strSection strKey (some strDefault) (c_str_or_null strComment)).2)) ∧
    ((A.GetValue ini strSection strKey).getD "" = "" → strDefault = "" →
      A.StringFill strSection 12 none = true →
      A.StringFill strKey 30 (some " to:") = true →
      0 ≤ (A.SetValue ini strSection strKey none (c_str_or_null strComment)).1 →
      CheckSet_str A ini strSection strKey strDefault out0 new0 strComment b0 =
        Except.ok (true, "", false,
          (A.SetValue ini strSection strKey none (c_str_or_null strComment)).2)) ∧
    CheckSet_str A ini strSection strKey strDefault out0 new0 strComment b0 ≠
      Except.error SettingsFatal.CheckSet_str_trailing := by
  refine ⟨?_, ?_, ?_, CheckSet_str_not_trailing A ini strSection strKey strDefault out0 new0
    strComment b0 hs hk⟩
  · intro v hget hv
    exact CheckSet_str_present A ini strSection strKey strDefault out0 new0 strComment b0 v
      hs hk (Check_str_present A ini strSection strKey v hs hk hget hv)
  · intro hget hd hl1 hl2 hrc hread
    have hc := Check_str_absent A ini strSection strKey hs hk hget
    have hc2 := Check_str_present A _ strSection strKey strDefault hs hk hread hd
    have hcmp : String_Compare strDefault strDefault = true := by simp [String_Compare]
    have hrc2 : ¬ 0 > (A.SetValue ini strSection strKey (some strDefault)
        (c_str_or_null strComment)).1 := not_lt.mpr hrc
    rw [CheckSet_str_absent A ini strSection strKey strDefault out0 new0 strComment b0
      hs hk hc, Set_str_absent A ini strSection strKey strDefault b0 strComment hs hk hc]
    simp only [c_str_or_null_of_ne hd, hl1, hl2, hrc2, hc2, hcmp, Bool.and_self,
      Bool.true_eq_false, if_false, if_true, reduceCtorEq, Bool.not_true, Bool.false_eq_true]
  · intro hget hd hl1 hl2 hrc
    have hc := Check_str_absent A ini strSection strKey hs hk hget
    subst hd
    have hrc2 : ¬ 0 > (A.SetValue ini strSection strKey none
        (c_str_or_null strComment)).1 := not_lt.mpr hrc
    rw [CheckSet_str_absent A ini strSection strKey "" out0 new0 strComment b0
      hs hk hc, Set_str_absent A ini strSection strKey "" b0 strComment hs hk hc]
    simp only [c_str_or_null_empty, hl1, hl2, hrc2, Bool.and_self,
      Bool.true_eq_false, if_false, if_true, Bool.not_true, Bool.false_eq_true]

/-- Witness of C26: the key "k" of section "s" holds "v"; in the empty store it
receives the default "d". -/
theorem CheckSet_str_behaviour_witness :
    ("s" : String) ≠ "" ∧ ("k" : String) ≠ "" ∧
    CheckSet_str sample_settings [(("s", "k"), "v")] "s" "k" "d" "" false "" false =
      Except.ok (true, "v", false, [(("s", "k"), "v")]) ∧
    CheckSet_str sample_settings [] "s" "k" "d" "" false "" false =
      Except.ok (true, "d", true, [(("s", "k"), "d")]) :=
  ⟨by decide, by decide,
   (CheckSet_str_behaviour sample_settings [(("s", "k"), "v")] "s" "k" "d" "" false "" false
     (by decide) (by decide)).1 "v" (by decide) (by decide),
   (CheckSet_str_behaviour sample_settings [] "s" "k" "d" "" false "" false
     (by decide) (by decide)).2.1 (by decide) (by decide) rfl rfl (by decide) (by decide)⟩

end opentxs
